import Mathlib

/-!
Shallow embedding of the ChainTrust settlement engines.

`FreelanceEscrow` is translated from `src/contracts/FreelanceEscrow.sol`:
addresses are naturals (0 is the zero address), amounts are naturals
(Solidity 0.8 checked arithmetic reverts on overflow/underflow, so the
unbounded naturals agree with `uint256` on every path that does not revert),
Solidity mappings are total functions with the zero-initialised default,
and a reverting call is `Except.error` (the caller's state is untouched:
each operation returns the whole post-state only on success).
Outgoing value transfers (`_transferFunds`) are recorded both in the
per-account balance map and in a prepend-only transfer log, so "credits X
exactly A" is stated exactly.
-/

namespace ChainTrust

/-- Account address; `0` is the zero address. -/
abbrev Address := Nat

/-- Pointwise update of a one-argument map (Solidity mapping write). -/
def updFn {α : Type} (f : Nat → α) (k : Nat) (v : α) : Nat → α :=
  fun x => if x = k then v else f x

/-- Pointwise update of a two-argument map (account × token balances). -/
def updFn2 (f : Nat → Nat → Nat) (a b v : Nat) : Nat → Nat → Nat :=
  fun x y => if x = a ∧ y = b then v else f x y

/-- `enum EscrowStatus` of FreelanceEscrow.sol. -/
inductive EscrowStatus : Type
  | Created
  | Funded
  | WorkSubmitted
  | Completed
  | Disputed
  | Cancelled
  | Refunded
  deriving DecidableEq, Repr

/-- `struct EscrowContract` of FreelanceEscrow.sol. -/
structure EscrowContract : Type where
  id : Nat
  client : Address
  freelancer : Address
  mediator : Address
  amount : Nat
  token : Address
  status : EscrowStatus
  deadline : Nat
  workDescription : String
  deliveryHash : String
  createdAt : Nat
  lastUpdated : Nat
  clientApproved : Bool
  freelancerSubmitted : Bool
  deriving DecidableEq, Repr

/-- The zero-initialised escrow record a Solidity mapping yields for an
unwritten key (enum value 0 is `Created`). -/
def defaultEscrow : EscrowContract :=
  { id := 0, client := 0, freelancer := 0, mediator := 0, amount := 0,
    token := 0, status := EscrowStatus.Created, deadline := 0,
    workDescription := "", deliveryHash := "", createdAt := 0,
    lastUpdated := 0, clientApproved := false, freelancerSubmitted := false }

/-- One credit performed by `_transferFunds` (recipient, amount, token);
`toAddr` renders the Solidity parameter `_to` (`to` is a Lean keyword). -/
structure Transfer : Type where
  toAddr : Address
  amount : Nat
  token : Address
  deriving DecidableEq, Repr

/-- Contract storage of FreelanceEscrow plus the external custody ledger:
`balances a t` is account `a`'s spendable balance in currency `t`
(`t = 0` is native ETH), and `transfers` is the log of outgoing credits,
newest first. -/
structure State : Type where
  escrows : Nat → EscrowContract
  clientEscrows : Address → List Nat
  freelancerEscrows : Address → List Nat
  nextEscrowId : Nat
  platformFee : Nat
  feeRecipient : Address
  approvedMediators : Address → Bool
  owner : Address
  balances : Address → Address → Nat
  transfers : List Transfer

/-- Storage right after the constructor (`nextEscrowId = 1`,
`platformFee = 250`), over an arbitrary initial external ledger. -/
def initState (deployer feeRecipient : Address) (bal : Address → Address → Nat) :
    State :=
  { escrows := fun _ => defaultEscrow
    clientEscrows := fun _ => []
    freelancerEscrows := fun _ => []
    nextEscrowId := 1
    platformFee := 250
    feeRecipient := feeRecipient
    approvedMediators := fun _ => false
    owner := deployer
    balances := bal
    transfers := [] }

/-- Atomic debit of the custody ledger: fails (no effect) when the payer's
balance in that currency is insufficient. -/
def debit (s : State) (payer token amt : Nat) : Option State :=
  if amt ≤ s.balances payer token then
    some { s with balances := updFn2 s.balances payer token (s.balances payer token - amt) }
  else
    none

/-- `_transferFunds` of FreelanceEscrow.sol: credit `to` with `amt` in
currency `token` and log the credit. -/
def _transferFunds (s : State) (recipient amt token : Nat) : State :=
  { s with
    balances := updFn2 s.balances recipient token (s.balances recipient token + amt)
    transfers := { toAddr := recipient, amount := amt, token := token } :: s.transfers }

/-- `createEscrow` of FreelanceEscrow.sol (lines 96-130). Returns the new
escrow id together with the post-state. -/
def createEscrow (s : State) (sender freelancer mediator amount token deadline : Nat)
    (workDescription : String) (now : Nat) : Except String (Nat × State) :=
  if freelancer = 0 then .error ("Invalid freelancer address")
  else if amount = 0 then .error ("Amount must be greater than 0")
  else if deadline ≤ now then .error ("Deadline must be in the future")
  else if s.approvedMediators mediator = true ∨ mediator = s.owner then
    let escrowId := s.nextEscrowId
    let newEscrow : EscrowContract :=
      { id := escrowId, client := sender, freelancer := freelancer,
        mediator := mediator, amount := amount, token := token,
        status := EscrowStatus.Created, deadline := deadline,
        workDescription := workDescription, deliveryHash := "",
        createdAt := now, lastUpdated := now,
        clientApproved := false, freelancerSubmitted := false }
    .ok (escrowId,
      { s with
        escrows := updFn s.escrows escrowId newEscrow
        nextEscrowId := escrowId + 1
        clientEscrows :=
          updFn s.clientEscrows sender (s.clientEscrows sender ++ [escrowId])
        freelancerEscrows :=
          updFn s.freelancerEscrows freelancer
            (s.freelancerEscrows freelancer ++ [escrowId]) })
  else .error ("Invalid mediator")

/-- `fundEscrow` of FreelanceEscrow.sol (lines 132-155). `msgValue` is the
ETH attached to the call; the ETH branch requires `msgValue == amount` and
the token branch runs `transferFrom`, both modelled as an atomic `debit`
of the client that fails on insufficient funds. -/
def fundEscrow (s : State) (sender escrowId msgValue now : Nat) :
    Except String State :=
  if escrowId < s.nextEscrowId then
    if (s.escrows escrowId).client = sender then
      let escrow := s.escrows escrowId
      if escrow.status = EscrowStatus.Created then
        if escrow.token = 0 then
          if msgValue = escrow.amount then
            match debit s sender 0 escrow.amount with
            | some s1 =>
                .ok { s1 with
                  escrows := updFn s1.escrows escrowId
                    { escrow with status := EscrowStatus.Funded, lastUpdated := now } }
            | none => .error ("insufficient funds")
          else .error ("Incorrect ETH amount")
        else
          if msgValue = 0 then
            match debit s sender escrow.token escrow.amount with
            | some s1 =>
                .ok { s1 with
                  escrows := updFn s1.escrows escrowId
                    { escrow with status := EscrowStatus.Funded, lastUpdated := now } }
            | none => .error ("ERC20: transfer amount exceeds balance")
          else .error ("Do not send ETH for token payments")
      else .error ("Escrow already funded or completed")
    else .error ("Only client can call this")
  else .error ("Escrow does not exist")

/-- `submitWork` of FreelanceEscrow.sol (lines 157-173). -/
def submitWork (s : State) (sender escrowId : Nat) (deliveryHash : String)
    (now : Nat) : Except String State :=
  if escrowId < s.nextEscrowId then
    if (s.escrows escrowId).freelancer = sender then
      let escrow := s.escrows escrowId
      if escrow.status = EscrowStatus.Funded then
        if now ≤ escrow.deadline then
          if deliveryHash.length = 0 then .error ("Delivery hash required")
          else
            .ok { s with
              escrows := updFn s.escrows escrowId
                { escrow with
                  deliveryHash := deliveryHash
                  freelancerSubmitted := true
                  status := EscrowStatus.WorkSubmitted
                  lastUpdated := now } }
        else .error ("Deadline passed")
      else .error ("Escrow not funded")
    else .error ("Only freelancer can call this")
  else .error ("Escrow does not exist")

/-- `_releasePayment` of FreelanceEscrow.sol (lines 251-261): floor-divided
basis-point fee, payout to the freelancer, fee to the fee recipient. -/
def _releasePayment (s : State) (escrowId : Nat) : State :=
  let escrow := s.escrows escrowId
  let fee := escrow.amount * s.platformFee / 10000
  let freelancerPayout := escrow.amount - fee
  let s1 := _transferFunds s escrow.freelancer freelancerPayout escrow.token
  _transferFunds s1 s.feeRecipient fee escrow.token

/-- `approveWork` of FreelanceEscrow.sol (lines 175-191). -/
def approveWork (s : State) (sender escrowId now : Nat) : Except String State :=
  if escrowId < s.nextEscrowId then
    if (s.escrows escrowId).client = sender then
      let escrow := s.escrows escrowId
      if escrow.status = EscrowStatus.WorkSubmitted then
        let s1 :=
          { s with
            escrows := updFn s.escrows escrowId
              { escrow with
                clientApproved := true
                status := EscrowStatus.Completed
                lastUpdated := now } }
        .ok (_releasePayment s1 escrowId)
      else .error ("Work not submitted")
    else .error ("Only client can call this")
  else .error ("Escrow does not exist")

/-- `raiseDispute` of FreelanceEscrow.sol (lines 193-209). -/
def raiseDispute (s : State) (sender escrowId now : Nat) : Except String State :=
  if escrowId < s.nextEscrowId then
    if sender = (s.escrows escrowId).client ∨ sender = (s.escrows escrowId).freelancer then
      let escrow := s.escrows escrowId
      if escrow.status = EscrowStatus.Funded ∨ escrow.status = EscrowStatus.WorkSubmitted then
        .ok { s with
          escrows := updFn s.escrows escrowId
            { escrow with status := EscrowStatus.Disputed, lastUpdated := now } }
      else .error ("Cannot dispute at this stage")
    else .error ("Only client or freelancer can call this")
  else .error ("Escrow does not exist")

/-- `resolveDispute` of FreelanceEscrow.sol (lines 211-234). -/
def resolveDispute (s : State) (sender escrowId clientAmount freelancerAmount now : Nat) :
    Except String State :=
  if escrowId < s.nextEscrowId then
    if (s.escrows escrowId).mediator = sender then
      let escrow := s.escrows escrowId
      if escrow.status = EscrowStatus.Disputed then
        if clientAmount + freelancerAmount = escrow.amount then
          let s1 :=
            { s with
              escrows := updFn s.escrows escrowId
                { escrow with status := EscrowStatus.Completed, lastUpdated := now } }
          let s2 :=
            if 0 < freelancerAmount then
              _transferFunds s1 escrow.freelancer freelancerAmount escrow.token
            else s1
          let s3 :=
            if 0 < clientAmount then
              _transferFunds s2 escrow.client clientAmount escrow.token
            else s2
          .ok s3
        else .error ("Amounts must sum to total")
      else .error ("Escrow not disputed")
    else .error ("Only assigned mediator can call this")
  else .error ("Escrow does not exist")

/-- `cancelEscrow` of FreelanceEscrow.sol (lines 236-249). -/
def cancelEscrow (s : State) (sender escrowId now : Nat) : Except String State :=
  if escrowId < s.nextEscrowId then
    if (s.escrows escrowId).client = sender then
      let escrow := s.escrows escrowId
      if escrow.status = EscrowStatus.Created then
        .ok { s with
          escrows := updFn s.escrows escrowId
            { escrow with status := EscrowStatus.Cancelled, lastUpdated := now } }
      else .error ("Cannot cancel funded escrow")
    else .error ("Only client can call this")
  else .error ("Escrow does not exist")

/-- `addMediator` of FreelanceEscrow.sol. -/
def addMediator (s : State) (sender mediator : Nat) : Except String State :=
  if sender = s.owner then
    .ok { s with approvedMediators := fun a => if a = mediator then true else s.approvedMediators a }
  else .error ("Ownable: caller is not the owner")

/-- `removeMediator` of FreelanceEscrow.sol. -/
def removeMediator (s : State) (sender mediator : Nat) : Except String State :=
  if sender = s.owner then
    .ok { s with approvedMediators := fun a => if a = mediator then false else s.approvedMediators a }
  else .error ("Ownable: caller is not the owner")

/-- `setPlatformFee` of FreelanceEscrow.sol (lines 283-286): owner only,
capped at 1000 basis points. -/
def setPlatformFee (s : State) (sender fee : Nat) : Except String State :=
  if sender = s.owner then
    if fee ≤ 1000 then .ok { s with platformFee := fee }
    else .error ("Fee cannot exceed 10%")
  else .error ("Ownable: caller is not the owner")

/-- `setFeeRecipient` of FreelanceEscrow.sol. -/
def setFeeRecipient (s : State) (sender recipient : Nat) : Except String State :=
  if sender = s.owner then
    if recipient = 0 then .error ("Invalid fee recipient")
    else .ok { s with feeRecipient := recipient }
  else .error ("Ownable: caller is not the owner")

/-- `true` exactly when the call reverted. -/
def errored : Except String State → Bool
  | .error _ => true
  | .ok _ => false

/-- The success state of `fundEscrow`: client debited by the escrow amount
in the escrow's currency, status `Funded`. -/
def fundedState (s : State) (sender escrowId now : Nat) : State :=
  { s with
    balances := updFn2 s.balances sender (s.escrows escrowId).token
      (s.balances sender (s.escrows escrowId).token - (s.escrows escrowId).amount)
    escrows := updFn s.escrows escrowId
      { s.escrows escrowId with status := EscrowStatus.Funded, lastUpdated := now } }

/-- The success state of `resolveDispute`: status `Completed`, then the two
positive shares transferred, freelancer first. -/
def resolvedState (s : State) (escrowId clientAmount freelancerAmount now : Nat) :
    State :=
  let escrow := s.escrows escrowId
  let s1 :=
    { s with
      escrows := updFn s.escrows escrowId
        { escrow with status := EscrowStatus.Completed, lastUpdated := now } }
  let s2 :=
    if 0 < freelancerAmount then
      _transferFunds s1 escrow.freelancer freelancerAmount escrow.token
    else s1
  if 0 < clientAmount then
    _transferFunds s2 escrow.client clientAmount escrow.token
  else s2

/-- One external call to FreelanceEscrow, bundling the caller, the
arguments and the block timestamp. -/
inductive Op : Type
  | createEscrowOp (sender freelancer mediator amount token deadline : Nat)
      (workDescription : String) (now : Nat)
  | fundEscrowOp (sender escrowId msgValue now : Nat)
  | submitWorkOp (sender escrowId : Nat) (deliveryHash : String) (now : Nat)
  | approveWorkOp (sender escrowId now : Nat)
  | raiseDisputeOp (sender escrowId now : Nat)
  | resolveDisputeOp (sender escrowId clientAmount freelancerAmount now : Nat)
  | cancelEscrowOp (sender escrowId now : Nat)
  | addMediatorOp (sender mediator : Nat)
  | removeMediatorOp (sender mediator : Nat)
  | setPlatformFeeOp (sender fee : Nat)
  | setFeeRecipientOp (sender recipient : Nat)

/-- The `msg.sender` of a call. -/
def Op.sender : Op → Nat
  | .createEscrowOp a _ _ _ _ _ _ _ => a
  | .fundEscrowOp a _ _ _ => a
  | .submitWorkOp a _ _ _ => a
  | .approveWorkOp a _ _ => a
  | .raiseDisputeOp a _ _ => a
  | .resolveDisputeOp a _ _ _ _ => a
  | .cancelEscrowOp a _ _ => a
  | .addMediatorOp a _ => a
  | .removeMediatorOp a _ => a
  | .setPlatformFeeOp a _ => a
  | .setFeeRecipientOp a _ => a

/-- Dispatch one external call. -/
def step (s : State) : Op → Except String State
  | .createEscrowOp a fl md amt tk dl wd now =>
      (createEscrow s a fl md amt tk dl wd now).map Prod.snd
  | .fundEscrowOp a eid v now => fundEscrow s a eid v now
  | .submitWorkOp a eid dh now => submitWork s a eid dh now
  | .approveWorkOp a eid now => approveWork s a eid now
  | .raiseDisputeOp a eid now => raiseDispute s a eid now
  | .resolveDisputeOp a eid ca fa now => resolveDispute s a eid ca fa now
  | .cancelEscrowOp a eid now => cancelEscrow s a eid now
  | .addMediatorOp a m => addMediator s a m
  | .removeMediatorOp a m => removeMediator s a m
  | .setPlatformFeeOp a f => setPlatformFee s a f
  | .setFeeRecipientOp a r => setFeeRecipient s a r

/-- States reachable from deployment through successful external calls.
On the hosting chain `msg.sender` is never the zero address, hence the
side condition on each step. -/
inductive Reachable : State → Prop
  | init (deployer feeRecipient : Address) (bal : Address → Address → Nat)
      (hd : deployer ≠ 0) : Reachable (initState deployer feeRecipient bal)
  | next (s s' : State) (op : Op) (hs : Reachable s) (hsender : op.sender ≠ 0)
      (hstep : step s op = .ok s') : Reachable s'

/-! ## Subscription Pool engine

Translated from `contract SubscriptionPool` (Solidity source embedded in
`src/frontend/next.config.js`, the contract that `src/scripts/deploy.js`
deploys and `src/backend/services/blockchain.js` calls). Only the
functions the claims touch are embedded: `leavePool`, `collectPayments`
with its `_tryCollectPayment`/`collectFromMember` debit path, and the
internal `_removeMember` and `_processPayout`. -/

/-- `struct Member` of SubscriptionPool.sol. -/
structure Member : Type where
  isActive : Bool
  joinedAt : Nat
  lastPayment : Nat
  failedPaymentCount : Nat
  totalPaid : Nat
  deriving DecidableEq, Repr

/-- `enum PoolStatus` of SubscriptionPool.sol. -/
inductive PoolStatus : Type
  | Active
  | Paused
  | Cancelled
  deriving DecidableEq, Repr

/-- `struct Pool` of SubscriptionPool.sol: member records keyed by account
(the `members` mapping) plus the `memberList` array for iteration. -/
structure Pool : Type where
  id : Nat
  owner : Address
  serviceName : String
  monthlyAmount : Nat
  token : Address
  maxMembers : Nat
  currentMembers : Nat
  status : PoolStatus
  nextPaymentDue : Nat
  createdAt : Nat
  memberData : Address → Member
  memberList : List Address
  failedPayments : Nat

/-- The SubscriptionPool.sol events emitted by the embedded functions. -/
inductive PoolEvent : Type
  | MemberJoined (poolId member : Nat)
  | MemberLeft (poolId member : Nat)
  | PaymentCollected (poolId member amount : Nat)
  | PayoutCompleted (poolId ownerAmount fee : Nat)
  | PaymentFailed (poolId member : Nat)
  | MemberRemoved (poolId member : Nat) (reason : String)
  deriving DecidableEq, Repr

/-- SubscriptionPool contract storage (`pools`, `ownerPools`,
`memberPools`, `nextPoolId` starting at 1, `platformFee` initialised to
200, `feeRecipient`) plus the external custody ledger and the audit event
log (newest first). -/
structure PoolState : Type where
  pools : Nat → Pool
  ownerPools : Address → List Nat
  memberPools : Address → List Nat
  nextPoolId : Nat
  platformFee : Nat
  feeRecipient : Address
  balances : Address → Address → Nat
  events : List PoolEvent

/-- Replace the first occurrence of `a` in the list by `v`. -/
def replaceFirst : List Nat → Nat → Nat → List Nat
  | [], _, _ => []
  | x :: xs, a, v => if x = a then v :: xs else x :: replaceFirst xs a v

/-- The removal idiom of `_removeMember`'s two loops: overwrite the first
occurrence with the last element, then pop (no effect when absent). -/
def swapRemove (l : List Nat) (a : Nat) : List Nat :=
  if a ∈ l then (replaceFirst l a (l.getLastD 0)).dropLast else l

/-- `_removeMember` of SubscriptionPool.sol: mark the member inactive,
decrement `currentMembers`, swap-remove it from `memberList` and the pool
id from the member's `memberPools`, then emit `MemberRemoved` (with the
reason) followed by `MemberLeft`. -/
def _removeMember (st : PoolState) (poolId member : Nat) (reason : String) :
    PoolState :=
  let p := st.pools poolId
  { st with
    pools := updFn st.pools poolId
      { p with
        memberData := updFn p.memberData member
          { p.memberData member with isActive := false }
        currentMembers := p.currentMembers - 1
        memberList := swapRemove p.memberList member }
    memberPools := updFn st.memberPools member
      (swapRemove (st.memberPools member) poolId)
    events := PoolEvent.MemberLeft poolId member ::
      PoolEvent.MemberRemoved poolId member reason :: st.events }

/-- `leavePool` of SubscriptionPool.sol: guards `validPool` and active
membership, then removes through `_removeMember` with the voluntary
reason. -/
def leavePool (st : PoolState) (sender poolId : Nat) : Except String PoolState :=
  if poolId < st.nextPoolId then
    if ((st.pools poolId).memberData sender).isActive = true then
      .ok (_removeMember st poolId sender ("Member left voluntarily"))
    else .error ("Not a member of this pool")
  else .error ("Pool does not exist")

/-- Thirty days in seconds (Solidity `30 days`). -/
def thirtyDays : Nat := 30 * 24 * 60 * 60

/-- `collectFromMember` of SubscriptionPool.sol, as reached through the
contract's try/catch self-call (its `msg.sender == address(this)` guard
holds on that only call path): it reverts unconditionally for ETH pools
("ETH collection requires manual payment"), and for token pools
`transferFrom` debits the member, reverting when the balance is
insufficient. `none` is the revert that `_tryCollectPayment` catches. -/
def collectFromMember (st : PoolState) (poolId member amount : Nat) :
    Option PoolState :=
  if (st.pools poolId).token = 0 then none
  else if amount ≤ st.balances member (st.pools poolId).token then
    some { st with
      balances := updFn2 st.balances member (st.pools poolId).token
        (st.balances member (st.pools poolId).token - amount) }
  else none

/-- `_tryCollectPayment` of SubscriptionPool.sol: on a successful debit
update `lastPayment`/`totalPaid`, reset `failedPaymentCount` to 0 and emit
`PaymentCollected`; a reverting debit leaves the state untouched and
reports failure. -/
def _tryCollectPayment (st : PoolState) (poolId member amount now : Nat) :
    PoolState × Bool :=
  match collectFromMember st poolId member amount with
  | some st1 =>
      let p := st1.pools poolId
      ({ st1 with
          pools := updFn st1.pools poolId
            { p with
              memberData := updFn p.memberData member
                { p.memberData member with
                  lastPayment := now
                  totalPaid := (p.memberData member).totalPaid + amount
                  failedPaymentCount := 0 } }
          events := PoolEvent.PaymentCollected poolId member amount :: st1.events },
        true)
  | none => (st, false)

/-- Credit one account of the pool ledger (an outgoing transfer of
`_processPayout`). -/
def poolCredit (st : PoolState) (acct token amt : Nat) : PoolState :=
  { st with
    balances := updFn2 st.balances acct token (st.balances acct token + amt) }

/-- `_processPayout` of SubscriptionPool.sol: split with the basis-point
fee, pay the pool owner and the fee recipient, emit `PayoutCompleted`. -/
def _processPayout (st : PoolState) (poolId amount : Nat) : PoolState :=
  let p := st.pools poolId
  let fee := amount * st.platformFee / 10000
  let ownerPayout := amount - fee
  let st1 := poolCredit st p.owner p.token ownerPayout
  let st2 := poolCredit st1 st.feeRecipient p.token fee
  { st2 with
    events := PoolEvent.PayoutCompleted poolId ownerPayout fee :: st2.events }

/-- The `for` loop of `collectPayments`, iterating the live `memberList`
by index: skip inactive entries; on a successful collection advance to
`i+1`; on a failure increment `failedPaymentCount`, emit `PaymentFailed`,
and at `MAX_FAILED_PAYMENTS = 2` remove the member and run the source's
`i--` followed by the loop's `i++`. The index is a checked `uint256`, so
for `i = 0` the decrement underflows, raises `Panic(0x11)` and reverts the
whole call (the `.error` branch); for `i ≥ 1` the net effect is staying at
the same index, now holding the element the removal swapped in. Every
non-reverting iteration decreases `memberList.length - i` by exactly one
(a removal shrinks the list instead of advancing `i`), so the `fuel`
argument — set to the list length by `collectPayments` — bounds the loop
exactly and the zero-fuel base case coincides with the exit condition
`i ≥ length`. Returns the post-state and the cycle total collected. -/
def collectLoopGo (poolId share now : Nat) :
    Nat → Nat → PoolState → Nat → Except String (PoolState × Nat)
  | 0, _, st, acc => .ok (st, acc)
  | fuel + 1, i, st, acc =>
      if i < (st.pools poolId).memberList.length then
        let member := (st.pools poolId).memberList.getD i 0
        if ((st.pools poolId).memberData member).isActive = true then
          let pr := _tryCollectPayment st poolId member share now
          if pr.2 = true then
            collectLoopGo poolId share now fuel (i + 1) pr.1 (acc + share)
          else
            let p := pr.1.pools poolId
            let mem := p.memberData member
            let st2 :=
              { pr.1 with
                pools := updFn pr.1.pools poolId
                  { p with
                    memberData := updFn p.memberData member
                      { mem with failedPaymentCount := mem.failedPaymentCount + 1 } }
                events := PoolEvent.PaymentFailed poolId member :: pr.1.events }
            if 2 ≤ mem.failedPaymentCount + 1 then
              let st3 := _removeMember st2 poolId member ("Too many failed payments")
              if i = 0 then .error ("panic: arithmetic underflow")
              else collectLoopGo poolId share now fuel (i - 1 + 1) st3 acc
            else collectLoopGo poolId share now fuel (i + 1) st2 acc
        else collectLoopGo poolId share now fuel (i + 1) st acc
      else .ok (st, acc)

/-- `collectPayments` of SubscriptionPool.sol: guards `validPool`,
`poolActive` and `block.timestamp >= nextPaymentDue`; computes the
per-member share once; runs the collection loop (whose index-underflow
panic reverts the whole call); sets
`nextPaymentDue = block.timestamp + 30 days`; pays out the collected total
when positive. -/
def collectPayments (st : PoolState) (poolId now : Nat) :
    Except String PoolState :=
  if poolId < st.nextPoolId then
    if (st.pools poolId).status = PoolStatus.Active then
      if (st.pools poolId).nextPaymentDue ≤ now then
        let share := (st.pools poolId).monthlyAmount / (st.pools poolId).maxMembers
        match collectLoopGo poolId share now
            (st.pools poolId).memberList.length 0 st 0 with
        | .error e => .error e
        | .ok r =>
            let st1 :=
              { r.1 with
                pools := updFn r.1.pools poolId
                  { r.1.pools poolId with nextPaymentDue := now + thirtyDays } }
            if 0 < r.2 then .ok (_processPayout st1 poolId r.2) else .ok st1
      else .error ("Payment not due yet")
    else .error ("Pool not active")
  else .error ("Pool does not exist")


/-! ## Concrete sample states, used to evaluate the theorems -/

/-- A sample escrow between client 5 and freelancer 6 mediated by 8. -/
def sampleEscrow (i : Nat) (st : EscrowStatus) (amt : Nat) : EscrowContract :=
  { id := i, client := 5, freelancer := 6, mediator := 8, amount := amt,
    token := 0, status := st, deadline := 100, workDescription := "w",
    deliveryHash := "", createdAt := 1, lastUpdated := 1,
    clientApproved := false, freelancerSubmitted := false }

/-- A populated contract state: escrows 1-6 in various statuses, owner 9,
fee recipient 7, approved mediator 8, client 5 holding 5000 wei. -/
def demoState : State :=
  { escrows := updFn (updFn (updFn (updFn (updFn (updFn (fun _ => defaultEscrow)
      1 (sampleEscrow 1 EscrowStatus.Funded 1000))
      2 (sampleEscrow 2 EscrowStatus.Created 1000))
      3 (sampleEscrow 3 EscrowStatus.WorkSubmitted 1000))
      4 (sampleEscrow 4 EscrowStatus.Disputed 1000))
      5 (sampleEscrow 5 EscrowStatus.Completed 1000))
      6 (sampleEscrow 6 EscrowStatus.Created 999999)
    clientEscrows := fun _ => []
    freelancerEscrows := fun _ => []
    nextEscrowId := 7
    platformFee := 250
    feeRecipient := 7
    approvedMediators := updFn (fun _ => false) 8 true
    owner := 9
    balances := fun a t => if a = 5 ∧ t = 0 then 5000 else 0
    transfers := [] }

/-- The zero-initialised pool member record. -/
def defaultMember : Member :=
  { isActive := false, joinedAt := 0, lastPayment := 0,
    failedPaymentCount := 0, totalPaid := 0 }

/-- The zero-initialised pool record a Solidity mapping yields for an
unwritten key (enum value 0 is `Active`). -/
def defaultPool : Pool :=
  { id := 0, owner := 0, serviceName := "", monthlyAmount := 0, token := 0,
    maxMembers := 0, currentMembers := 0, status := PoolStatus.Active,
    nextPaymentDue := 0, createdAt := 0,
    memberData := fun _ => defaultMember, memberList := [], failedPayments := 0 }

/-- A sample pool state: ETH pool 1 (so the tick's debit reverts for every
member), owner 2, monthly 400 over 4 seats, two active members — 4 with no
prior failures and 5 with one prior failure. -/
def demoPool : PoolState :=
  { pools := updFn (fun _ => defaultPool) 1
      { id := 1, owner := 2, serviceName := "svc", monthlyAmount := 400,
        token := 0, maxMembers := 4, currentMembers := 2,
        status := PoolStatus.Active, nextPaymentDue := 10, createdAt := 1,
        memberData := updFn (updFn (fun _ => defaultMember)
          4 { isActive := true, joinedAt := 1, lastPayment := 1,
              failedPaymentCount := 0, totalPaid := 100 })
          5 { isActive := true, joinedAt := 1, lastPayment := 1,
              failedPaymentCount := 1, totalPaid := 100 }
        memberList := [4, 5]
        failedPayments := 0 }
    ownerPools := updFn (fun _ => []) 2 [1]
    memberPools := updFn (updFn (fun _ => []) 4 [1]) 5 [1]
    nextPoolId := 2
    platformFee := 200
    feeRecipient := 7
    balances := fun a t => if a = 4 ∧ t = 0 then 1000 else 0
    events := [] }

/-- The same pool with the member list reordered so that member 5 — the
one with a prior failure — sits at index 0 and is processed first. -/
def demoPoolBug : PoolState :=
  { demoPool with
    pools := updFn demoPool.pools 1
      { demoPool.pools 1 with memberList := [5, 4] } }

/-! ## Helper lemmas: success characterizations of the escrow operations -/

theorem errored_iff (r : Except String State) :
    errored r = true ↔ ∀ s', r ≠ .ok s' := by
  cases r <;> simp [errored]

theorem submitWork_ok_iff (s : State) (sender eid : Nat) (dh : String)
    (now : Nat) (s' : State) :
    submitWork s sender eid dh now = .ok s' ↔
      (eid < s.nextEscrowId ∧ (s.escrows eid).freelancer = sender ∧
       (s.escrows eid).status = EscrowStatus.Funded ∧
       now ≤ (s.escrows eid).deadline ∧ dh.length ≠ 0 ∧
       s' = { s with
         escrows := updFn s.escrows eid
           { s.escrows eid with
             deliveryHash := dh
             freelancerSubmitted := true
             status := EscrowStatus.WorkSubmitted
             lastUpdated := now } }) := by
  constructor
  · intro h
    unfold submitWork at h
    dsimp only at h
    repeat' split at h
    all_goals simp_all
  · rintro ⟨h1, h2, h3, h4, h5, rfl⟩
    unfold submitWork
    simp [h1, h2, h3, h4, h5]

theorem updFn_apply {α : Type} (f : Nat → α) (k : Nat) (v : α) (x : Nat) :
    updFn f k v x = if x = k then v else f x := rfl

theorem updFn_same {α : Type} (f : Nat → α) (k : Nat) (v : α) :
    updFn f k v k = v := by
  simp [updFn]

theorem updFn_other {α : Type} (f : Nat → α) (k : Nat) (v : α) (x : Nat)
    (h : x ≠ k) : updFn f k v x = f x := by
  simp [updFn, h]

theorem debit_some_iff (s : State) (p t a : Nat) (s1 : State) :
    debit s p t a = some s1 ↔
      (a ≤ s.balances p t ∧
       s1 = { s with balances := updFn2 s.balances p t (s.balances p t - a) }) := by
  unfold debit
  split_ifs with h
  · simp [h, eq_comm]
  · simp [h]

theorem fundEscrow_ok_iff (s : State) (sender eid v now : Nat) (s' : State) :
    fundEscrow s sender eid v now = .ok s' ↔
      (eid < s.nextEscrowId ∧ (s.escrows eid).client = sender ∧
       (s.escrows eid).status = EscrowStatus.Created ∧
       v = (if (s.escrows eid).token = 0 then (s.escrows eid).amount else 0) ∧
       (s.escrows eid).amount ≤ s.balances sender (s.escrows eid).token ∧
       s' = fundedState s sender eid now) := by
  constructor
  · intro h
    unfold fundEscrow at h
    dsimp only at h
    repeat' split at h
    all_goals simp_all [debit_some_iff, fundedState]
  · rintro ⟨h1, h2, h3, h4, h5, rfl⟩
    unfold fundEscrow debit fundedState
    by_cases ht : (s.escrows eid).token = 0 <;> simp_all

theorem approveWork_ok_iff (s : State) (sender eid now : Nat) (s' : State) :
    approveWork s sender eid now = .ok s' ↔
      (eid < s.nextEscrowId ∧ (s.escrows eid).client = sender ∧
       (s.escrows eid).status = EscrowStatus.WorkSubmitted ∧
       s' = _releasePayment
         { s with
           escrows := updFn s.escrows eid
             { s.escrows eid with
               clientApproved := true
               status := EscrowStatus.Completed
               lastUpdated := now } } eid) := by
  constructor
  · intro h
    unfold approveWork at h
    dsimp only at h
    repeat' split at h
    all_goals simp_all
  · rintro ⟨h1, h2, h3, rfl⟩
    unfold approveWork
    simp [h1, h2, h3]

theorem raiseDispute_ok_iff (s : State) (sender eid now : Nat) (s' : State) :
    raiseDispute s sender eid now = .ok s' ↔
      (eid < s.nextEscrowId ∧
       (sender = (s.escrows eid).client ∨ sender = (s.escrows eid).freelancer) ∧
       ((s.escrows eid).status = EscrowStatus.Funded ∨
        (s.escrows eid).status = EscrowStatus.WorkSubmitted) ∧
       s' = { s with
         escrows := updFn s.escrows eid
           { s.escrows eid with status := EscrowStatus.Disputed, lastUpdated := now } }) := by
  constructor
  · intro h
    unfold raiseDispute at h
    dsimp only at h
    repeat' split at h
    all_goals simp_all
  · rintro ⟨h1, h2, h3, rfl⟩
    unfold raiseDispute
    simp [h1, h2, h3]

theorem resolveDispute_ok_iff (s : State) (sender eid ca fa now : Nat) (s' : State) :
    resolveDispute s sender eid ca fa now = .ok s' ↔
      (eid < s.nextEscrowId ∧ (s.escrows eid).mediator = sender ∧
       (s.escrows eid).status = EscrowStatus.Disputed ∧
       ca + fa = (s.escrows eid).amount ∧
       s' = resolvedState s eid ca fa now) := by
  constructor
  · intro h
    unfold resolveDispute at h
    dsimp only at h
    repeat' split at h
    all_goals simp_all [resolvedState]
  · rintro ⟨h1, h2, h3, h4, rfl⟩
    unfold resolveDispute resolvedState
    simp [h1, h2, h3, h4]

theorem cancelEscrow_ok_iff (s : State) (sender eid now : Nat) (s' : State) :
    cancelEscrow s sender eid now = .ok s' ↔
      (eid < s.nextEscrowId ∧ (s.escrows eid).client = sender ∧
       (s.escrows eid).status = EscrowStatus.Created ∧
       s' = { s with
         escrows := updFn s.escrows eid
           { s.escrows eid with status := EscrowStatus.Cancelled, lastUpdated := now } }) := by
  constructor
  · intro h
    unfold cancelEscrow at h
    dsimp only at h
    repeat' split at h
    all_goals simp_all
  · rintro ⟨h1, h2, h3, rfl⟩
    unfold cancelEscrow
    simp [h1, h2, h3]

theorem createEscrow_ok_iff (s : State)
    (sender fl md amt tk dl : Nat) (wd : String) (now : Nat) (r : Nat × State) :
    createEscrow s sender fl md amt tk dl wd now = .ok r ↔
      (fl ≠ 0 ∧ amt ≠ 0 ∧ now < dl ∧
       (s.approvedMediators md = true ∨ md = s.owner) ∧
       r = (s.nextEscrowId,
         { s with
           escrows := updFn s.escrows s.nextEscrowId
             { id := s.nextEscrowId, client := sender, freelancer := fl,
               mediator := md, amount := amt, token := tk,
               status := EscrowStatus.Created, deadline := dl,
               workDescription := wd, deliveryHash := "",
               createdAt := now, lastUpdated := now,
               clientApproved := false, freelancerSubmitted := false }
           nextEscrowId := s.nextEscrowId + 1
           clientEscrows := updFn s.clientEscrows sender
             (s.clientEscrows sender ++ [s.nextEscrowId])
           freelancerEscrows := updFn s.freelancerEscrows fl
             (s.freelancerEscrows fl ++ [s.nextEscrowId]) })) := by
  constructor
  · intro h
    unfold createEscrow at h
    dsimp only at h
    repeat' split at h
    all_goals simp_all
  · rintro ⟨h1, h2, h3, h4, rfl⟩
    unfold createEscrow
    simp [h1, h2, h4, Nat.not_le.mpr h3]

theorem setPlatformFee_ok_iff (s : State) (sender fee : Nat) (s' : State) :
    setPlatformFee s sender fee = .ok s' ↔
      (sender = s.owner ∧ fee ≤ 1000 ∧ s' = { s with platformFee := fee }) := by
  constructor
  · intro h
    unfold setPlatformFee at h
    repeat' split at h
    all_goals simp_all
  · rintro ⟨h1, h2, rfl⟩
    unfold setPlatformFee
    simp [h1, h2]

theorem addMediator_ok_iff (s : State) (sender m : Nat) (s' : State) :
    addMediator s sender m = .ok s' ↔
      (sender = s.owner ∧
       s' = { s with approvedMediators := fun a => if a = m then true else s.approvedMediators a }) := by
  constructor
  · intro h
    unfold addMediator at h
    repeat' split at h
    all_goals simp_all
  · rintro ⟨h1, rfl⟩
    unfold addMediator
    simp [h1]

theorem removeMediator_ok_iff (s : State) (sender m : Nat) (s' : State) :
    removeMediator s sender m = .ok s' ↔
      (sender = s.owner ∧
       s' = { s with approvedMediators := fun a => if a = m then false else s.approvedMediators a }) := by
  constructor
  · intro h
    unfold removeMediator at h
    repeat' split at h
    all_goals simp_all
  · rintro ⟨h1, rfl⟩
    unfold removeMediator
    simp [h1]

theorem setFeeRecipient_ok_iff (s : State) (sender r : Nat) (s' : State) :
    setFeeRecipient s sender r = .ok s' ↔
      (sender = s.owner ∧ r ≠ 0 ∧ s' = { s with feeRecipient := r }) := by
  constructor
  · intro h
    unfold setFeeRecipient at h
    repeat' split at h
    all_goals simp_all
  · rintro ⟨h1, h2, rfl⟩
    unfold setFeeRecipient
    simp [h1, h2]

theorem _transferFunds_platformFee (s : State) (r a t : Nat) :
    (_transferFunds s r a t).platformFee = s.platformFee := rfl

theorem _releasePayment_platformFee (s : State) (eid : Nat) :
    (_releasePayment s eid).platformFee = s.platformFee := rfl

theorem resolvedState_platformFee (s : State) (eid ca fa now : Nat) :
    (resolvedState s eid ca fa now).platformFee = s.platformFee := by
  unfold resolvedState _transferFunds
  dsimp only
  split_ifs <;> rfl

theorem _transferFunds_escrows (s : State) (r a t : Nat) :
    (_transferFunds s r a t).escrows = s.escrows := rfl

theorem _releasePayment_escrows (s : State) (eid : Nat) :
    (_releasePayment s eid).escrows = s.escrows := rfl

theorem _transferFunds_nextEscrowId (s : State) (r a t : Nat) :
    (_transferFunds s r a t).nextEscrowId = s.nextEscrowId := rfl

theorem _releasePayment_nextEscrowId (s : State) (eid : Nat) :
    (_releasePayment s eid).nextEscrowId = s.nextEscrowId := rfl

theorem resolvedState_escrows (s : State) (eid ca fa now : Nat) :
    (resolvedState s eid ca fa now).escrows =
      updFn s.escrows eid
        { s.escrows eid with status := EscrowStatus.Completed, lastUpdated := now } := by
  unfold resolvedState _transferFunds
  dsimp only
  split_ifs <;> rfl

theorem resolvedState_nextEscrowId (s : State) (eid ca fa now : Nat) :
    (resolvedState s eid ca fa now).nextEscrowId = s.nextEscrowId := by
  unfold resolvedState _transferFunds
  dsimp only
  split_ifs <;> rfl

/-- Every successful call by a non-zero caller keeps `nextEscrowId ≥ 1` and
leaves the phantom record at id 0 untouched. -/
theorem step_preserves_zeroEscrow (s s' : State) (op : Op)
    (hok : step s op = .ok s') (hsender : op.sender ≠ 0)
    (h : 1 ≤ s.nextEscrowId ∧ s.escrows 0 = defaultEscrow) :
    1 ≤ s'.nextEscrowId ∧ s'.escrows 0 = defaultEscrow := by
  obtain ⟨hn, hz⟩ := h
  cases op with
  | createEscrowOp a fl md amt tk dl wd now =>
      simp only [step] at hok
      cases hc : createEscrow s a fl md amt tk dl wd now with
      | error e => rw [hc] at hok; simp [Except.map] at hok
      | ok r =>
          rw [hc] at hok
          simp only [Except.map] at hok
          cases hok
          rw [createEscrow_ok_iff] at hc
          obtain ⟨_, _, _, _, rfl⟩ := hc
          have h0 : (0 : Nat) ≠ s.nextEscrowId := by omega
          exact ⟨by simp, by simpa [updFn_apply, h0] using hz⟩
  | fundEscrowOp a eid v now =>
      simp only [step] at hok
      rw [fundEscrow_ok_iff] at hok
      obtain ⟨_, hcl, _, _, _, rfl⟩ := hok
      have h0 : (0 : Nat) ≠ eid := by
        intro he
        rw [← he, hz] at hcl
        exact hsender hcl.symm
      exact ⟨hn, by simpa [fundedState, updFn_apply, h0] using hz⟩
  | submitWorkOp a eid dh now =>
      simp only [step] at hok
      rw [submitWork_ok_iff] at hok
      obtain ⟨_, hfl, _, _, _, rfl⟩ := hok
      have h0 : (0 : Nat) ≠ eid := by
        intro he
        rw [← he, hz] at hfl
        exact hsender hfl.symm
      exact ⟨hn, by simpa [updFn_apply, h0] using hz⟩
  | approveWorkOp a eid now =>
      simp only [step] at hok
      rw [approveWork_ok_iff] at hok
      obtain ⟨_, hcl, _, rfl⟩ := hok
      have h0 : (0 : Nat) ≠ eid := by
        intro he
        rw [← he, hz] at hcl
        exact hsender hcl.symm
      refine ⟨by simpa [_releasePayment_nextEscrowId] using hn, ?_⟩
      rw [_releasePayment_escrows]
      simpa [updFn_apply, h0] using hz
  | raiseDisputeOp a eid now =>
      simp only [step] at hok
      rw [raiseDispute_ok_iff] at hok
      obtain ⟨_, hpa, _, rfl⟩ := hok
      have h0 : (0 : Nat) ≠ eid := by
        intro he
        rw [← he, hz] at hpa
        rcases hpa with h | h <;> exact hsender h
      exact ⟨hn, by simpa [updFn_apply, h0] using hz⟩
  | resolveDisputeOp a eid ca fa now =>
      simp only [step] at hok
      rw [resolveDispute_ok_iff] at hok
      obtain ⟨_, hmd, _, _, rfl⟩ := hok
      have h0 : (0 : Nat) ≠ eid := by
        intro he
        rw [← he, hz] at hmd
        exact hsender hmd.symm
      refine ⟨by simpa [resolvedState_nextEscrowId] using hn, ?_⟩
      rw [resolvedState_escrows]
      simpa [updFn_apply, h0] using hz
  | cancelEscrowOp a eid now =>
      simp only [step] at hok
      rw [cancelEscrow_ok_iff] at hok
      obtain ⟨_, hcl, _, rfl⟩ := hok
      have h0 : (0 : Nat) ≠ eid := by
        intro he
        rw [← he, hz] at hcl
        exact hsender hcl.symm
      exact ⟨hn, by simpa [updFn_apply, h0] using hz⟩
  | addMediatorOp a m =>
      simp only [step] at hok
      rw [addMediator_ok_iff] at hok
      obtain ⟨_, rfl⟩ := hok
      exact ⟨hn, hz⟩
  | removeMediatorOp a m =>
      simp only [step] at hok
      rw [removeMediator_ok_iff] at hok
      obtain ⟨_, rfl⟩ := hok
      exact ⟨hn, hz⟩
  | setPlatformFeeOp a f =>
      simp only [step] at hok
      rw [setPlatformFee_ok_iff] at hok
      obtain ⟨_, _, rfl⟩ := hok
      exact ⟨hn, hz⟩
  | setFeeRecipientOp a r =>
      simp only [step] at hok
      rw [setFeeRecipient_ok_iff] at hok
      obtain ⟨_, _, rfl⟩ := hok
      exact ⟨hn, hz⟩

/-- In every reachable state the phantom escrow id 0 still holds the
zero-initialised record and `nextEscrowId` never dropped below 1. -/
theorem reachable_zeroEscrow (s : State) (h : Reachable s) :
    1 ≤ s.nextEscrowId ∧ s.escrows 0 = defaultEscrow := by
  induction h with
  | init d f b hd => exact ⟨Nat.le_refl 1, rfl⟩
  | next s s' op hs hsender hstep ih =>
      exact step_preserves_zeroEscrow s s' op hstep hsender ih

/-- Every successful call preserves the 10% fee cap. -/
theorem step_preserves_feeCap (s s' : State) (op : Op)
    (hok : step s op = .ok s') (h : s.platformFee ≤ 1000) :
    s'.platformFee ≤ 1000 := by
  cases op with
  | createEscrowOp a fl md amt tk dl wd now =>
      simp only [step] at hok
      cases hc : createEscrow s a fl md amt tk dl wd now with
      | error e => rw [hc] at hok; simp [Except.map] at hok
      | ok r =>
          rw [hc] at hok
          simp only [Except.map] at hok
          cases hok
          rw [createEscrow_ok_iff] at hc
          obtain ⟨_, _, _, _, rfl⟩ := hc
          exact h
  | fundEscrowOp a eid v now =>
      simp only [step] at hok
      rw [fundEscrow_ok_iff] at hok
      obtain ⟨_, _, _, _, _, rfl⟩ := hok
      exact h
  | submitWorkOp a eid dh now =>
      simp only [step] at hok
      rw [submitWork_ok_iff] at hok
      obtain ⟨_, _, _, _, _, rfl⟩ := hok
      exact h
  | approveWorkOp a eid now =>
      simp only [step] at hok
      rw [approveWork_ok_iff] at hok
      obtain ⟨_, _, _, rfl⟩ := hok
      simpa [_releasePayment_platformFee] using h
  | raiseDisputeOp a eid now =>
      simp only [step] at hok
      rw [raiseDispute_ok_iff] at hok
      obtain ⟨_, _, _, rfl⟩ := hok
      exact h
  | resolveDisputeOp a eid ca fa now =>
      simp only [step] at hok
      rw [resolveDispute_ok_iff] at hok
      obtain ⟨_, _, _, _, rfl⟩ := hok
      simpa [resolvedState_platformFee] using h
  | cancelEscrowOp a eid now =>
      simp only [step] at hok
      rw [cancelEscrow_ok_iff] at hok
      obtain ⟨_, _, _, rfl⟩ := hok
      exact h
  | addMediatorOp a m =>
      simp only [step] at hok
      rw [addMediator_ok_iff] at hok
      obtain ⟨_, rfl⟩ := hok
      exact h
  | removeMediatorOp a m =>
      simp only [step] at hok
      rw [removeMediator_ok_iff] at hok
      obtain ⟨_, rfl⟩ := hok
      exact h
  | setPlatformFeeOp a f =>
      simp only [step] at hok
      rw [setPlatformFee_ok_iff] at hok
      obtain ⟨_, hf, rfl⟩ := hok
      exact hf
  | setFeeRecipientOp a r =>
      simp only [step] at hok
      rw [setFeeRecipient_ok_iff] at hok
      obtain ⟨_, _, rfl⟩ := hok
      exact h

theorem updFn2_same (f : Nat → Nat → Nat) (a b v : Nat) :
    updFn2 f a b v a b = v := by
  simp [updFn2]

theorem updFn2_other (f : Nat → Nat → Nat) (a b v x y : Nat)
    (h : ¬(x = a ∧ y = b)) : updFn2 f a b v x y = f x y := by
  simp only [updFn2, if_neg h]

theorem string_length_eq_zero (s : String) : s.length = 0 ↔ s = "" := by
  constructor
  · intro h
    cases s with
    | mk data =>
        simp [String.length] at h
        simp [h]
  · intro h
    simp [h]

theorem _releasePayment_transfers (s : State) (eid : Nat) :
    (_releasePayment s eid).transfers =
      { toAddr := s.feeRecipient,
        amount := (s.escrows eid).amount * s.platformFee / 10000,
        token := (s.escrows eid).token } ::
      { toAddr := (s.escrows eid).freelancer,
        amount := (s.escrows eid).amount - (s.escrows eid).amount * s.platformFee / 10000,
        token := (s.escrows eid).token } :: s.transfers := rfl

theorem resolvedState_transfers (s : State) (eid ca fa now : Nat) :
    (resolvedState s eid ca fa now).transfers =
      (if 0 < ca then
        [{ toAddr := (s.escrows eid).client, amount := ca, token := (s.escrows eid).token }]
       else []) ++
      (if 0 < fa then
        [{ toAddr := (s.escrows eid).freelancer, amount := fa, token := (s.escrows eid).token }]
       else []) ++ s.transfers := by
  unfold resolvedState _transferFunds
  dsimp only
  split_ifs <;> simp

/-! ## The claims -/

/-- C1. For every escrow in status `WorkSubmitted`, `approveWork` called by
the escrow's client succeeds, sets status `Completed`, and credits the
freelancer exactly `amount - amount*feeBps/10000` and the fee recipient
exactly `amount*feeBps/10000` (floor division), the two credits summing to
exactly the funded amount. The fee-cap invariant `platformFee ≤ 1000`
(initial value 250, enforced by `setPlatformFee`) is taken as a hypothesis;
it guarantees `fee ≤ amount` so the subtraction is exact. The concrete
instance amount=1000, feeBps=250 ⟹ 975/25 is checked in the witness. -/
theorem claim_C1_approveWork_release (s : State) (sender eid now : Nat)
    (hv : eid < s.nextEscrowId)
    (hc : (s.escrows eid).client = sender)
    (hs : (s.escrows eid).status = EscrowStatus.WorkSubmitted)
    (hcap : s.platformFee ≤ 1000) :
    ∃ s', approveWork s sender eid now = .ok s' ∧
      (s'.escrows eid).status = EscrowStatus.Completed ∧
      s'.transfers =
        { toAddr := s.feeRecipient,
          amount := (s.escrows eid).amount * s.platformFee / 10000,
          token := (s.escrows eid).token } ::
        { toAddr := (s.escrows eid).freelancer,
          amount := (s.escrows eid).amount
            - (s.escrows eid).amount * s.platformFee / 10000,
          token := (s.escrows eid).token } :: s.transfers ∧
      ((s.escrows eid).amount - (s.escrows eid).amount * s.platformFee / 10000)
          + (s.escrows eid).amount * s.platformFee / 10000
        = (s.escrows eid).amount := by
  have hfee : (s.escrows eid).amount * s.platformFee / 10000 ≤ (s.escrows eid).amount := by
    calc (s.escrows eid).amount * s.platformFee / 10000
        ≤ (s.escrows eid).amount * 10000 / 10000 :=
          Nat.div_le_div_right
            (Nat.mul_le_mul_left _ (le_trans hcap (by norm_num)))
      _ = (s.escrows eid).amount := Nat.mul_div_cancel _ (by norm_num)
  refine ⟨_, (approveWork_ok_iff s sender eid now _).mpr ⟨hv, hc, hs, rfl⟩, ?_, ?_, ?_⟩
  · simp [_releasePayment_escrows, updFn_same]
  · rw [_releasePayment_transfers]
    simp [updFn_same]
  · exact Nat.sub_add_cancel hfee

/-- C2. `resolveDispute(e, a, b)` fails whenever `a + b ≠ amount` (a revert
returns no post-state, so nothing changes and nothing is transferred), and
when the escrow is `Disputed`, the caller is the assigned mediator and
`a + b = amount`, it succeeds, credits the client exactly `a` and the
freelancer exactly `b` (skipping zero credits, with no platform fee
deducted) and sets status `Completed`. -/
theorem claim_C2_resolveDispute_conservation (s : State)
    (sender eid ca fa now : Nat) :
    (ca + fa ≠ (s.escrows eid).amount →
      errored (resolveDispute s sender eid ca fa now) = true) ∧
    (eid < s.nextEscrowId → (s.escrows eid).mediator = sender →
     (s.escrows eid).status = EscrowStatus.Disputed →
     ca + fa = (s.escrows eid).amount →
      ∃ s', resolveDispute s sender eid ca fa now = .ok s' ∧
        (s'.escrows eid).status = EscrowStatus.Completed ∧
        s'.transfers =
          (if 0 < ca then
            [{ toAddr := (s.escrows eid).client, amount := ca,
               token := (s.escrows eid).token }]
           else []) ++
          (if 0 < fa then
            [{ toAddr := (s.escrows eid).freelancer, amount := fa,
               token := (s.escrows eid).token }]
           else []) ++ s.transfers) := by
  constructor
  · intro hne
    rw [errored_iff]
    intro s' hok
    rw [resolveDispute_ok_iff] at hok
    exact hne hok.2.2.2.1
  · intro hv hm hs hsum
    refine ⟨_, (resolveDispute_ok_iff s sender eid ca fa now _).mpr
      ⟨hv, hm, hs, hsum, rfl⟩, ?_, resolvedState_transfers s eid ca fa now⟩
    simp [resolvedState_escrows, updFn_same]

/-- C3. Once an escrow's status is `Completed`, `Cancelled` or `Refunded`,
every state-changing operation on it reverts at its status guard (for every
caller and every argument), so a terminal escrow record never changes
again: a revert returns no post-state. -/
theorem claim_C3_terminal_states (s : State) (eid : Nat)
    (hterm : (s.escrows eid).status = EscrowStatus.Completed ∨
             (s.escrows eid).status = EscrowStatus.Cancelled ∨
             (s.escrows eid).status = EscrowStatus.Refunded) :
    ∀ sender v now ca fa dh,
      errored (fundEscrow s sender eid v now) = true ∧
      errored (submitWork s sender eid dh now) = true ∧
      errored (approveWork s sender eid now) = true ∧
      errored (raiseDispute s sender eid now) = true ∧
      errored (resolveDispute s sender eid ca fa now) = true ∧
      errored (cancelEscrow s sender eid now) = true := by
  intro sender v now ca fa dh
  refine ⟨?_, ?_, ?_, ?_, ?_, ?_⟩ <;> rw [errored_iff] <;> intro s' hok
  · rw [fundEscrow_ok_iff] at hok
    rcases hterm with h | h | h <;> simp [h] at hok
  · rw [submitWork_ok_iff] at hok
    rcases hterm with h | h | h <;> simp [h] at hok
  · rw [approveWork_ok_iff] at hok
    rcases hterm with h | h | h <;> simp [h] at hok
  · rw [raiseDispute_ok_iff] at hok
    rcases hterm with h | h | h <;> simp [h] at hok
  · rw [resolveDispute_ok_iff] at hok
    rcases hterm with h | h | h <;> simp [h] at hok
  · rw [cancelEscrow_ok_iff] at hok
    rcases hterm with h | h | h <;> simp [h] at hok

/-- C4. For an escrow in status `Created`, `fundEscrow` called by the
client (with the call value the ETH branch or the token branch expects)
debits the caller exactly `amount` in the escrow's currency — no other
balance changes and no outgoing transfer — and sets status `Funded`; when
the client's balance is insufficient the debit fails and the whole call
reverts, returning no post-state (no partial state). -/
theorem claim_C4_fund_atomic (s : State) (sender eid v now : Nat)
    (hv : eid < s.nextEscrowId)
    (hc : (s.escrows eid).client = sender)
    (hst : (s.escrows eid).status = EscrowStatus.Created)
    (hmsg : v = (if (s.escrows eid).token = 0 then (s.escrows eid).amount else 0)) :
    ((s.escrows eid).amount ≤ s.balances sender (s.escrows eid).token →
      ∃ s', fundEscrow s sender eid v now = .ok s' ∧
        s'.balances sender (s.escrows eid).token
          = s.balances sender (s.escrows eid).token - (s.escrows eid).amount ∧
        (∀ x t, ¬(x = sender ∧ t = (s.escrows eid).token) →
          s'.balances x t = s.balances x t) ∧
        (s'.escrows eid).status = EscrowStatus.Funded ∧
        s'.transfers = s.transfers) ∧
    (s.balances sender (s.escrows eid).token < (s.escrows eid).amount →
      errored (fundEscrow s sender eid v now) = true) := by
  constructor
  · intro hbal
    refine ⟨_, (fundEscrow_ok_iff s sender eid v now _).mpr
      ⟨hv, hc, hst, hmsg, hbal, rfl⟩, ?_, ?_, ?_, rfl⟩
    · simp [fundedState, updFn2_same]
    · intro x t hxt
      simp [fundedState, updFn2_other _ _ _ _ _ _ hxt]
    · simp [fundedState, updFn_same]
  · intro hbal
    rw [errored_iff]
    intro s' hok
    rw [fundEscrow_ok_iff] at hok
    omega

/-- C5. Starting from `WorkSubmitted` with the client calling, the first
`approveWork` succeeds and a second `approveWork` on the resulting state
reverts at the status guard (the escrow is now `Completed`), so the release
payment runs exactly once; and `resolveDispute` on an escrow whose status
is not `Disputed` always reverts. -/
theorem claim_C5_no_double_release (s : State) (sender eid now now2 : Nat)
    (hv : eid < s.nextEscrowId)
    (hc : (s.escrows eid).client = sender)
    (hs : (s.escrows eid).status = EscrowStatus.WorkSubmitted)
    (s2 : State) (sender2 eid2 ca fa now3 : Nat)
    (hnd : (s2.escrows eid2).status ≠ EscrowStatus.Disputed) :
    (∃ s', approveWork s sender eid now = .ok s' ∧
       errored (approveWork s' sender eid now2) = true) ∧
    errored (resolveDispute s2 sender2 eid2 ca fa now3) = true := by
  constructor
  · refine ⟨_, (approveWork_ok_iff s sender eid now _).mpr ⟨hv, hc, hs, rfl⟩, ?_⟩
    rw [errored_iff]
    intro s'' hok
    rw [approveWork_ok_iff] at hok
    have hstat := hok.2.2.1
    rw [_releasePayment_escrows] at hstat
    simp [updFn_same] at hstat
  · rw [errored_iff]
    intro s' hok
    rw [resolveDispute_ok_iff] at hok
    exact hnd hok.2.2.1

/-- C6. `submitWork` reverts whenever `now` is strictly past the deadline;
when it succeeds, the status was `Funded`, the caller was the freelancer,
the deadline had not passed and the delivery reference was non-empty, and
it records the delivery reference and sets `WorkSubmitted`. `fundEscrow`
and `approveWork` carry no deadline guard: with their status and caller
guards (and, for funding, the payment) satisfied they succeed even when
`now` is past the deadline. -/
theorem claim_C6_deadline_only_bounds_submission (s : State) :
    (∀ sender eid dh now, (s.escrows eid).deadline < now →
      errored (submitWork s sender eid dh now) = true) ∧
    (∀ sender eid dh now s', submitWork s sender eid dh now = .ok s' →
      (s.escrows eid).status = EscrowStatus.Funded ∧
      (s.escrows eid).freelancer = sender ∧
      now ≤ (s.escrows eid).deadline ∧ dh ≠ "" ∧
      (s'.escrows eid).deliveryHash = dh ∧
      (s'.escrows eid).status = EscrowStatus.WorkSubmitted) ∧
    (∀ sender eid v now, eid < s.nextEscrowId →
      (s.escrows eid).client = sender →
      (s.escrows eid).status = EscrowStatus.Created →
      v = (if (s.escrows eid).token = 0 then (s.escrows eid).amount else 0) →
      (s.escrows eid).amount ≤ s.balances sender (s.escrows eid).token →
      (s.escrows eid).deadline < now →
      ∃ s', fundEscrow s sender eid v now = .ok s') ∧
    (∀ sender eid now, eid < s.nextEscrowId →
      (s.escrows eid).client = sender →
      (s.escrows eid).status = EscrowStatus.WorkSubmitted →
      (s.escrows eid).deadline < now →
      ∃ s', approveWork s sender eid now = .ok s') := by
  refine ⟨?_, ?_, ?_, ?_⟩
  · intro sender eid dh now hlate
    rw [errored_iff]
    intro s' hok
    rw [submitWork_ok_iff] at hok
    omega
  · intro sender eid dh now s' hok
    rw [submitWork_ok_iff] at hok
    obtain ⟨_, hfl, hst, hdl, hdh, rfl⟩ := hok
    refine ⟨hst, hfl, hdl, ?_, ?_, ?_⟩
    · intro he
      exact hdh ((string_length_eq_zero dh).mpr he)
    · simp [updFn_same]
    · simp [updFn_same]
  · intro sender eid v now hv hc hst hmsg hbal _
    exact ⟨_, (fundEscrow_ok_iff s sender eid v now _).mpr
      ⟨hv, hc, hst, hmsg, hbal, rfl⟩⟩
  · intro sender eid now hv hc hst _
    exact ⟨_, (approveWork_ok_iff s sender eid now _).mpr ⟨hv, hc, hst, rfl⟩⟩

/-- C7. `createEscrow` succeeds exactly when the freelancer is non-null,
the amount positive, the deadline strictly in the future and the mediator
approved or the contract owner; on success it returns the current
`nextEscrowId` (so ids are sequential and never reused), bumps the
counter, stores the record with status `Created`, and moves no funds. -/
theorem claim_C7_create_guards_and_id (s : State)
    (sender fl md amt tk dl : Nat) (wd : String) (now : Nat) :
    ((∃ r, createEscrow s sender fl md amt tk dl wd now = .ok r) ↔
      (fl ≠ 0 ∧ 0 < amt ∧ now < dl ∧
       (s.approvedMediators md = true ∨ md = s.owner))) ∧
    (∀ i s', createEscrow s sender fl md amt tk dl wd now = .ok (i, s') →
      i = s.nextEscrowId ∧ s'.nextEscrowId = s.nextEscrowId + 1 ∧
      (s'.escrows i).status = EscrowStatus.Created ∧
      (s'.escrows i).client = sender ∧ (s'.escrows i).amount = amt ∧
      s'.balances = s.balances ∧ s'.transfers = s.transfers) := by
  constructor
  · constructor
    · rintro ⟨r, hok⟩
      rw [createEscrow_ok_iff] at hok
      exact ⟨hok.1, Nat.pos_of_ne_zero hok.2.1, hok.2.2.1, hok.2.2.2.1⟩
    · rintro ⟨h1, h2, h3, h4⟩
      exact ⟨_, (createEscrow_ok_iff s sender fl md amt tk dl wd now _).mpr
        ⟨h1, Nat.pos_iff_ne_zero.mp h2, h3, h4, rfl⟩⟩
  · intro i s' hok
    rw [createEscrow_ok_iff] at hok
    obtain ⟨_, _, _, _, heq⟩ := hok
    obtain ⟨rfl, rfl⟩ := Prod.mk.injEq .. ▸ heq
    refine ⟨rfl, rfl, ?_, ?_, ?_, rfl, rfl⟩ <;> simp [updFn_same]

/-- C8. The escrow fee rate is changeable only by the contract owner; a
non-owner call reverts, and any attempt (by anyone) to set a rate above
1000 basis points reverts, leaving the stored rate unchanged (a revert
returns no post-state). Consequently `platformFee ≤ 1000` is preserved by
every operation, and the fee `_releasePayment` deducts never exceeds 10%
of the escrow amount. -/
theorem claim_C8_fee_cap (s s2 s3 : State) (op : Op) (s' : State)
    (sender sender2 fee1 fee2 eid : Nat)
    (hok : step s op = .ok s') (hcap : s.platformFee ≤ 1000)
    (hns : sender ≠ s2.owner) (hbig : 1000 < fee2)
    (hcap3 : s3.platformFee ≤ 1000) :
    errored (setPlatformFee s2 sender fee1) = true ∧
    errored (setPlatformFee s2 sender2 fee2) = true ∧
    s'.platformFee ≤ 1000 ∧
    (_releasePayment s3 eid).transfers =
      { toAddr := s3.feeRecipient,
        amount := (s3.escrows eid).amount * s3.platformFee / 10000,
        token := (s3.escrows eid).token } ::
      { toAddr := (s3.escrows eid).freelancer,
        amount := (s3.escrows eid).amount
          - (s3.escrows eid).amount * s3.platformFee / 10000,
        token := (s3.escrows eid).token } :: s3.transfers ∧
    (s3.escrows eid).amount * s3.platformFee / 10000 ≤ (s3.escrows eid).amount / 10 := by
  refine ⟨?_, ?_, step_preserves_feeCap s s' op hok hcap,
    _releasePayment_transfers s3 eid, ?_⟩
  · rw [errored_iff]
    intro s'' hok2
    rw [setPlatformFee_ok_iff] at hok2
    exact hns hok2.1
  · rw [errored_iff]
    intro s'' hok2
    rw [setPlatformFee_ok_iff] at hok2
    omega
  · calc (s3.escrows eid).amount * s3.platformFee / 10000
        ≤ (s3.escrows eid).amount * 1000 / 10000 :=
          Nat.div_le_div_right (Nat.mul_le_mul_left _ hcap3)
      _ = (s3.escrows eid).amount / 10 := by
          rw [show (10000 : Nat) = 10 * 1000 by norm_num,
            Nat.mul_div_mul_right _ _ (by norm_num : (0:Nat) < 1000)]

/-- C10. `nextEscrowId` starts at 1 and never decreases, so escrow id 0
passes the `validEscrow` existence check in every reachable state; yet the
record at id 0 is the zero-initialised default whose client, freelancer
and mediator are all the zero address, and since `msg.sender` is never the
zero address every state-changing operation on escrow 0 reverts — the
phantom escrow can never change state or move funds. -/
theorem claim_C10_phantom_escrow_zero (s : State) (h : Reachable s)
    (sender : Nat) (hz : sender ≠ 0) (v now ca fa : Nat) (dh : String) :
    0 < s.nextEscrowId ∧
    (s.escrows 0).client = 0 ∧ (s.escrows 0).freelancer = 0 ∧
    (s.escrows 0).mediator = 0 ∧
    errored (fundEscrow s sender 0 v now) = true ∧
    errored (submitWork s sender 0 dh now) = true ∧
    errored (approveWork s sender 0 now) = true ∧
    errored (raiseDispute s sender 0 now) = true ∧
    errored (resolveDispute s sender 0 ca fa now) = true ∧
    errored (cancelEscrow s sender 0 now) = true := by
  obtain ⟨hn, hdef⟩ := reachable_zeroEscrow s h
  refine ⟨hn, by rw [hdef]; rfl, by rw [hdef]; rfl, by rw [hdef]; rfl,
    ?_, ?_, ?_, ?_, ?_, ?_⟩ <;> rw [errored_iff] <;> intro s' hok
  · rw [fundEscrow_ok_iff] at hok
    exact hz (hok.2.1 ▸ by rw [hdef]; rfl : (0:Nat) = sender).symm
  · rw [submitWork_ok_iff] at hok
    exact hz (hok.2.1 ▸ by rw [hdef]; rfl : (0:Nat) = sender).symm
  · rw [approveWork_ok_iff] at hok
    exact hz (hok.2.1 ▸ by rw [hdef]; rfl : (0:Nat) = sender).symm
  · rw [raiseDispute_ok_iff] at hok
    have hpa := hok.2.1
    rw [hdef] at hpa
    rcases hpa with hp | hp <;> exact hz (by simpa [defaultEscrow] using hp)
  · rw [resolveDispute_ok_iff] at hok
    exact hz (hok.2.1 ▸ by rw [hdef]; rfl : (0:Nat) = sender).symm
  · rw [cancelEscrow_ok_iff] at hok
    exact hz (hok.2.1 ▸ by rw [hdef]; rfl : (0:Nat) = sender).symm

/-! ## Helper lemmas for the pool engine -/

theorem replaceFirst_length (l : List Nat) (a v : Nat) :
    (replaceFirst l a v).length = l.length := by
  induction l with
  | nil => rfl
  | cons x xs ih =>
      unfold replaceFirst
      split_ifs <;> simp [ih]

theorem getLastD_congr (l : List Nat) (h : l ≠ []) (d1 d2 : Nat) :
    l.getLastD d1 = l.getLastD d2 := by
  cases l with
  | nil => exact absurd rfl h
  | cons x xs => rw [List.getLastD_cons, List.getLastD_cons]

theorem dropLast_cons_of_ne_nil (x : Nat) (l : List Nat) (h : l ≠ []) :
    (x :: l).dropLast = x :: l.dropLast := by
  cases l with
  | nil => exact absurd rfl h
  | cons y ys => rfl

theorem perm_getLast_cons (L : List Nat) (h : L ≠ []) :
    List.Perm (L.getLast h :: L.dropLast) L := by
  conv_rhs => rw [← List.dropLast_append_getLast h]
  exact (List.perm_append_singleton _ _).symm

/-- Swap-with-last-and-pop removes exactly one occurrence: up to order it
is `List.erase`. -/
theorem swapRemove_perm_erase (a : Nat) (l : List Nat) (h : a ∈ l) :
    List.Perm (swapRemove l a) (l.erase a) := by
  induction l with
  | nil => cases h
  | cons x xs ih =>
      by_cases hx : x = a
      · subst hx
        rw [List.erase_cons_head]
        unfold swapRemove
        rw [if_pos h]
        cases xs with
        | nil => simp [replaceFirst]
        | cons y ys =>
            have h1 : replaceFirst (x :: y :: ys) x ((x :: y :: ys).getLastD 0)
                = ((x :: y :: ys).getLastD 0) :: y :: ys := by
              simp [replaceFirst]
            rw [h1, List.getLastD_cons, List.getLastD_cons,
              dropLast_cons_of_ne_nil _ _ (List.cons_ne_nil y ys),
              ← List.getLast_eq_getLastD y ys (List.cons_ne_nil y ys)]
            exact perm_getLast_cons (y :: ys) (List.cons_ne_nil y ys)
      · have ha : a ∈ xs := by
          rcases List.mem_cons.mp h with h1 | h1
          · exact absurd h1.symm hx
          · exact h1
        have hxs : xs ≠ [] := List.ne_nil_of_mem ha
        rw [List.erase_cons_tail (by simp [hx])]
        unfold swapRemove
        rw [if_pos h]
        have h1 : replaceFirst (x :: xs) a ((x :: xs).getLastD 0)
            = x :: replaceFirst xs a ((x :: xs).getLastD 0) := by
          simp [replaceFirst, hx]
        have hrf : replaceFirst xs a ((x :: xs).getLastD 0) ≠ [] := by
          intro he
          have hl := replaceFirst_length xs a ((x :: xs).getLastD 0)
          rw [he] at hl
          exact hxs (List.length_eq_zero.mp hl.symm)
        rw [h1, dropLast_cons_of_ne_nil _ _ hrf, List.getLastD_cons,
          getLastD_congr xs hxs x 0]
        have ih2 := ih ha
        unfold swapRemove at ih2
        rw [if_pos ha] at ih2
        exact ih2.cons x

theorem not_mem_swapRemove_self (l : List Nat) (m : Nat) (hnd : l.Nodup) :
    m ∉ swapRemove l m := by
  by_cases h : m ∈ l
  · intro hmem
    have hh := (swapRemove_perm_erase m l h).mem_iff.mp hmem
    exact (hnd.mem_erase_iff.mp hh).1 rfl
  · rw [swapRemove, if_neg h]
    exact h

theorem mem_swapRemove_of_ne (l : List Nat) (a m : Nat) (hne : m ≠ a)
    (hm : m ∈ l) : m ∈ swapRemove l a := by
  by_cases h : a ∈ l
  · exact (swapRemove_perm_erase a l h).mem_iff.mpr
      ((List.mem_erase_of_ne hne).mpr hm)
  · rw [swapRemove, if_neg h]
    exact hm

theorem not_mem_swapRemove (l : List Nat) (a m : Nat) (hm : m ∉ l) :
    m ∉ swapRemove l a := by
  by_cases h : a ∈ l
  · intro hmem
    exact hm (List.mem_of_mem_erase ((swapRemove_perm_erase a l h).mem_iff.mp hmem))
  · rw [swapRemove, if_neg h]
    exact hm

theorem nodup_swapRemove (l : List Nat) (a : Nat) (hnd : l.Nodup) :
    (swapRemove l a).Nodup := by
  by_cases h : a ∈ l
  · exact (swapRemove_perm_erase a l h).nodup_iff.mpr (hnd.erase a)
  · rw [swapRemove, if_neg h]
    exact hnd

/-- `collectFromMember` reverts exactly for ETH pools or on insufficient
token balance. -/
theorem collectFromMember_none_iff (st : PoolState) (pid m amt : Nat) :
    collectFromMember st pid m amt = none ↔
      ((st.pools pid).token = 0 ∨
       st.balances m (st.pools pid).token < amt) := by
  unfold collectFromMember
  split_ifs with h1 h2 <;> simp_all

/-- A caught debit revert leaves `_tryCollectPayment` with the input state. -/
theorem _tryCollectPayment_of_none (st : PoolState) (pid m amt now : Nat)
    (h : collectFromMember st pid m amt = none) :
    _tryCollectPayment st pid m amt now = (st, false) := by
  unfold _tryCollectPayment
  rw [h]

/-- The failure outcome of `_tryCollectPayment` carries the input state. -/
theorem _tryCollectPayment_false_eq (st st1 : PoolState) (pid b amt now : Nat)
    (h : _tryCollectPayment st pid b amt now = (st1, false)) : st1 = st := by
  unfold _tryCollectPayment at h
  cases hc : collectFromMember st pid b amt <;> rw [hc] at h <;> simp at h
  exact h.symm

/-- `_tryCollectPayment` on account `b` does not touch member `m`'s record,
the member list, the pool currency, `m`'s balance, or existing events. -/
theorem _tryCollectPayment_frame (st : PoolState) (pid b amt now m : Nat)
    (hbm : b ≠ m) :
    ((_tryCollectPayment st pid b amt now).1.pools pid).memberData m
        = (st.pools pid).memberData m ∧
    ((_tryCollectPayment st pid b amt now).1.pools pid).memberList
        = (st.pools pid).memberList ∧
    ((_tryCollectPayment st pid b amt now).1.pools pid).token
        = (st.pools pid).token ∧
    (_tryCollectPayment st pid b amt now).1.balances m (st.pools pid).token
        = st.balances m (st.pools pid).token ∧
    (∀ e, e ∈ st.events → e ∈ (_tryCollectPayment st pid b amt now).1.events) := by
  have hmb : m ≠ b := Ne.symm hbm
  unfold _tryCollectPayment collectFromMember
  dsimp only
  split_ifs with h1 h2
  · exact ⟨rfl, rfl, rfl, rfl, fun e he => he⟩
  · refine ⟨?_, ?_, ?_, ?_, ?_⟩
    · simp [updFn_apply, hmb]
    · simp [updFn_apply]
    · simp [updFn_apply]
    · simp [updFn_apply, updFn2, hmb]
    · intro e he
      simp only [List.mem_cons]
      exact Or.inr he
  · exact ⟨rfl, rfl, rfl, rfl, fun e he => he⟩

/-- `_removeMember` on account `b` does not touch member `m`'s record, the
pool currency, `m`'s balance, `m`'s absence from the list, the list's
`Nodup`, or existing events. -/
theorem _removeMember_frame (st : PoolState) (pid b m : Nat) (r : String)
    (hbm : b ≠ m) :
    ((_removeMember st pid b r).pools pid).memberData m
        = (st.pools pid).memberData m ∧
    ((_removeMember st pid b r).pools pid).token = (st.pools pid).token ∧
    (_removeMember st pid b r).balances m (st.pools pid).token
        = st.balances m (st.pools pid).token ∧
    (m ∉ (st.pools pid).memberList →
      m ∉ ((_removeMember st pid b r).pools pid).memberList) ∧
    ((st.pools pid).memberList.Nodup →
      ((_removeMember st pid b r).pools pid).memberList.Nodup) ∧
    (∀ e, e ∈ st.events → e ∈ (_removeMember st pid b r).events) := by
  have hmb : m ≠ b := Ne.symm hbm
  unfold _removeMember
  dsimp only
  refine ⟨?_, ?_, ?_, ?_, ?_, ?_⟩
  · simp [updFn_apply, hmb]
  · simp [updFn_apply]
  · simp [updFn_apply]
  · intro h
    simpa [updFn_apply] using not_mem_swapRemove _ b _ h
  · intro h
    simpa [updFn_apply] using nodup_swapRemove _ b h
  · intro e he
    simp only [List.mem_cons]
    exact Or.inr (Or.inr he)

/-- With no duplicates, `replaceFirst` at the value found at index `i` is
`List.set` at `i`. -/
theorem replaceFirst_eq_set (l : List Nat) (a v i : Nat) (hnd : l.Nodup)
    (hi : i < l.length) (hia : l.getD i 0 = a) :
    replaceFirst l a v = l.set i v := by
  induction l generalizing i with
  | nil => simp at hi
  | cons x xs ih =>
      cases i with
      | zero =>
          rw [List.getD_cons_zero] at hia
          simp [replaceFirst, hia]
      | succ k =>
          rw [List.getD_cons_succ] at hia
          have hk : k < xs.length := by simpa using hi
          have hax : a ∈ xs := by
            rw [← hia, List.getD_eq_getElem xs 0 hk]
            exact List.getElem_mem hk
          have hxa : x ≠ a := by
            intro he
            exact (List.nodup_cons.mp hnd).1 (he ▸ hax)
          simp [replaceFirst, hxa, ih k (List.nodup_cons.mp hnd).2 hk hia]

/-- Removing a present entry shrinks the list by one. -/
theorem swapRemove_length (l : List Nat) (a : Nat) (h : a ∈ l) :
    (swapRemove l a).length = l.length - 1 := by
  rw [(swapRemove_perm_erase a l h).length_eq, List.length_erase_of_mem h]

theorem getLastD_eq_getLast (l : List Nat) (h : l ≠ []) :
    l.getLastD 0 = l.getLast h := by
  cases l with
  | nil => exact absurd rfl h
  | cons x xs => rw [List.getLastD_cons, ← List.getLast_eq_getLastD]

/-- After swap-removing the entry found at index `i`, a different entry
sitting at index `j ≥ i` is still present at some index `k ≥ i`: either it
stays at `j`, or it was the last element and the swap moved it to `i`. -/
theorem getD_swapRemove (l : List Nat) (a m i j : Nat) (hnd : l.Nodup)
    (hi : i < l.length) (hia : l.getD i 0 = a)
    (hj : j < l.length) (hjm : l.getD j 0 = m) (hma : m ≠ a) (hij : i ≤ j) :
    ∃ k, i ≤ k ∧ k < (swapRemove l a).length ∧ (swapRemove l a).getD k 0 = m := by
  have hal : a ∈ l := by
    rw [← hia, List.getD_eq_getElem l 0 hi]
    exact List.getElem_mem hi
  have hnil : l ≠ [] := List.ne_nil_of_mem hal
  have hsw : swapRemove l a = (l.set i (l.getLastD 0)).dropLast := by
    rw [swapRemove, if_pos hal, replaceFirst_eq_set l a _ i hnd hi hia]
  have hlen : (swapRemove l a).length = l.length - 1 := swapRemove_length l a hal
  have hne : i ≠ j := by
    intro he
    subst he
    rw [hia] at hjm
    exact hma hjm.symm
  by_cases hjl : j < l.length - 1
  · refine ⟨j, hij, by omega, ?_⟩
    rw [hsw]
    have hj2 : j < ((l.set i (l.getLastD 0)).dropLast).length := by
      simp [List.length_set]
      omega
    rw [List.getD_eq_getElem _ 0 hj2, List.getElem_dropLast,
      List.getElem_set_ne hne, ← List.getD_eq_getElem l 0 hj]
    exact hjm
  · have hjeq : j = l.length - 1 := by omega
    have hi2 : i < l.length - 1 := by omega
    refine ⟨i, Nat.le_refl i, by omega, ?_⟩
    rw [hsw]
    have hi3 : i < ((l.set i (l.getLastD 0)).dropLast).length := by
      simp [List.length_set]
      omega
    rw [List.getD_eq_getElem _ 0 hi3, List.getElem_dropLast,
      List.getElem_set_self, getLastD_eq_getLast l hnil,
      List.getLast_eq_getElem l hnil, ← List.getD_eq_getElem l 0 (by omega : l.length - 1 < l.length)]
    rw [← hjeq]
    exact hjm

/-- Eviction facts persist through the rest of the collection loop, and —
starting from a positive index, as every iteration after the first one
does — the loop also runs to completion without tripping the index
underflow: later iterations skip the now-inactive member, only touch
other accounts, and any further removal happens at an index `≥ 1`. -/
theorem collectLoopGo_post (pid share now m : Nat) (fuel : Nat) :
    ∀ (i : Nat) (st : PoolState) (acc : Nat),
      1 ≤ i →
      ((st.pools pid).memberData m).isActive = false →
      m ∉ (st.pools pid).memberList →
      PoolEvent.MemberRemoved pid m "Too many failed payments" ∈ st.events →
      ∃ st' tot, collectLoopGo pid share now fuel i st acc = .ok (st', tot) ∧
        ((st'.pools pid).memberData m).isActive = false ∧
        m ∉ (st'.pools pid).memberList ∧
        PoolEvent.MemberRemoved pid m "Too many failed payments" ∈ st'.events := by
  induction fuel with
  | zero =>
      intro i st acc hi1 h1 h2 h3
      exact ⟨st, acc, rfl, h1, h2, h3⟩
  | succ fuel ih =>
      intro i st acc hi1 h1 h2 h3
      simp only [collectLoopGo]
      by_cases hlen : i < (st.pools pid).memberList.length
      · rw [if_pos hlen]
        set b := (st.pools pid).memberList.getD i 0 with hbdef
        by_cases hact : ((st.pools pid).memberData b).isActive = true
        · rw [if_pos hact]
          have hbm : b ≠ m := by
            intro he
            rw [he, h1] at hact
            cases hact
          have hmb : m ≠ b := Ne.symm hbm
          have hfr := _tryCollectPayment_frame st pid b share now m hbm
          rcases htp : _tryCollectPayment st pid b share now with ⟨st1, flag⟩
          rw [htp] at hfr
          cases flag
          · have hst1 : st1 = st :=
              _tryCollectPayment_false_eq st st1 pid _ share now htp
            subst hst1
            dsimp only
            rw [if_neg Bool.false_ne_true]
            by_cases hth : 2 ≤ ((st1.pools pid).memberData b).failedPaymentCount + 1
            · rw [if_pos hth, if_neg (show ¬ i = 0 by omega),
                show i - 1 + 1 = i from by omega]
              apply ih i _ acc hi1
              · unfold _removeMember
                simpa [updFn_apply, hmb] using h1
              · unfold _removeMember
                simpa [updFn_apply, hmb] using
                  not_mem_swapRemove (st1.pools pid).memberList b m h2
              · unfold _removeMember
                dsimp only
                simp only [List.mem_cons]
                exact Or.inr (Or.inr (Or.inr h3))
            · rw [if_neg hth]
              apply ih (i + 1) _ acc (by omega)
              · simpa [updFn_apply, hmb] using h1
              · simpa [updFn_apply] using h2
              · simp only [List.mem_cons]
                exact Or.inr h3
          · dsimp only
            rw [if_pos rfl]
            apply ih (i + 1) st1 (acc + share) (by omega)
            · rw [hfr.1]
              exact h1
            · rw [hfr.2.1]
              exact h2
            · exact hfr.2.2.2.2 _ h3
        · rw [if_neg hact]
          exact ih (i + 1) st acc (by omega) h1 h2 h3
      · rw [if_neg hlen]
        exact ⟨st, acc, rfl, h1, h2, h3⟩

/-- With enough fuel, and starting from a positive index — every index the
loop reaches after its first iteration — the loop evicts a pending member
`m` (active, one prior failure, and a debit that reverts: ETH pool or
insufficient token balance) and completes without tripping the index
underflow: `m` waits at some index `j ≥ i`, survives unrelated iterations
(an unrelated removal can only swap it from the tail down to the removal
slot, which is not yet passed), and on its turn fails, reaches the
threshold and is removed through `_removeMember` at an index `≥ 1`. -/
theorem collectLoopGo_evicts (pid share now m : Nat) (fuel : Nat) :
    ∀ (i : Nat) (st : PoolState) (acc : Nat) (j : Nat),
      1 ≤ i →
      (st.pools pid).memberList.Nodup →
      i ≤ j → j < (st.pools pid).memberList.length →
      (st.pools pid).memberList.getD j 0 = m →
      (st.pools pid).memberList.length - i ≤ fuel →
      ((st.pools pid).memberData m).isActive = true →
      1 ≤ ((st.pools pid).memberData m).failedPaymentCount →
      ((st.pools pid).token = 0 ∨ st.balances m (st.pools pid).token < share) →
      ∃ st' tot, collectLoopGo pid share now fuel i st acc = .ok (st', tot) ∧
        ((st'.pools pid).memberData m).isActive = false ∧
        m ∉ (st'.pools pid).memberList ∧
        PoolEvent.MemberRemoved pid m "Too many failed payments" ∈ st'.events := by
  induction fuel with
  | zero =>
      intro i st acc j hi1 hnd hij hj hjm hfuel hact hcnt hfail
      omega
  | succ fuel ih =>
      intro i st acc j hi1 hnd hij hj hjm hfuel hact hcnt hfail
      simp only [collectLoopGo]
      have hilen : i < (st.pools pid).memberList.length := by omega
      rw [if_pos hilen]
      set b := (st.pools pid).memberList.getD i 0 with hbdef
      by_cases hbm : b = m
      · rw [hbm]
        rw [if_pos hact]
        have hnone : collectFromMember st pid m share = none :=
          (collectFromMember_none_iff st pid m share).mpr hfail
        have htp : _tryCollectPayment st pid m share now = (st, false) :=
          _tryCollectPayment_of_none st pid m share now hnone
        rw [htp]
        dsimp only
        rw [if_neg Bool.false_ne_true,
          if_pos (show 2 ≤ ((st.pools pid).memberData m).failedPaymentCount + 1 by omega),
          if_neg (show ¬ i = 0 by omega), show i - 1 + 1 = i from by omega]
        apply collectLoopGo_post pid share now m fuel i _ acc hi1
        · unfold _removeMember
          simp [updFn_apply]
        · unfold _removeMember
          simpa [updFn_apply] using
            not_mem_swapRemove_self (st.pools pid).memberList m hnd
        · unfold _removeMember
          simp
      · have hmb : m ≠ b := Ne.symm hbm
        have hij2 : i < j := by
          rcases Nat.lt_or_ge i j with h | h
          · exact h
          · have he : i = j := by omega
            rw [he] at hbdef
            rw [hjm] at hbdef
            exact absurd hbdef hbm
        by_cases hbact : ((st.pools pid).memberData b).isActive = true
        · rw [if_pos hbact]
          have hfr := _tryCollectPayment_frame st pid b share now m hbm
          rcases htp : _tryCollectPayment st pid b share now with ⟨st1, flag⟩
          rw [htp] at hfr
          cases flag
          · have hst1 : st1 = st :=
              _tryCollectPayment_false_eq st st1 pid _ share now htp
            subst hst1
            dsimp only
            rw [if_neg Bool.false_ne_true]
            by_cases hth : 2 ≤ ((st1.pools pid).memberData b).failedPaymentCount + 1
            · rw [if_pos hth, if_neg (show ¬ i = 0 by omega),
                show i - 1 + 1 = i from by omega]
              obtain ⟨k, hk1, hk2, hk3⟩ := getD_swapRemove
                (st1.pools pid).memberList b m i j hnd hilen hbdef.symm hj hjm hmb hij
              have hblen : b ∈ (st1.pools pid).memberList := by
                rw [hbdef, List.getD_eq_getElem _ 0 hilen]
                exact List.getElem_mem hilen
              have hlen2 := swapRemove_length (st1.pools pid).memberList b hblen
              refine ih i _ acc k hi1 ?_ hk1 ?_ ?_ ?_ ?_ ?_ ?_
              · unfold _removeMember
                simpa [updFn_apply] using
                  nodup_swapRemove (st1.pools pid).memberList b hnd
              · unfold _removeMember
                simpa [updFn_apply] using hk2
              · unfold _removeMember
                simpa [updFn_apply] using hk3
              · unfold _removeMember
                simp only [updFn_apply, if_pos rfl]
                simp [hlen2]
                omega
              · unfold _removeMember
                simpa [updFn_apply, hmb] using hact
              · unfold _removeMember
                simpa [updFn_apply, hmb] using hcnt
              · unfold _removeMember
                simpa [updFn_apply, updFn2, hmb] using hfail
            · rw [if_neg hth]
              refine ih (i + 1) _ acc j (by omega) ?_ (by omega) ?_ ?_ ?_ ?_ ?_ ?_
              · simpa [updFn_apply] using hnd
              · simpa [updFn_apply] using hj
              · simpa [updFn_apply] using hjm
              · simp only [updFn_apply, if_pos rfl]
                simp
                omega
              · simpa [updFn_apply, hmb] using hact
              · simpa [updFn_apply, hmb] using hcnt
              · simpa [updFn_apply] using hfail
          · dsimp only
            rw [if_pos rfl]
            refine ih (i + 1) st1 (acc + share) j (by omega) ?_ (by omega) ?_ ?_ ?_ ?_ ?_ ?_
            · rw [hfr.2.1]
              exact hnd
            · rw [hfr.2.1]
              exact hj
            · rw [hfr.2.1]
              exact hjm
            · rw [hfr.2.1]
              omega
            · rw [hfr.1]
              exact hact
            · rw [hfr.1]
              exact hcnt
            · rcases hfail with h | h
              · left
                rw [hfr.2.2.1]
                exact h
              · right
                rw [hfr.2.2.1, hfr.2.2.2.1]
                exact h
        · rw [if_neg hbact]
          exact ih (i + 1) st acc j (by omega) hnd (by omega) hj hjm (by omega)
            hact hcnt hfail
/-- C9. The claim fails on the code. The failure path of `collectPayments`
does increment `failedPaymentCount` and, at `MAX_FAILED_PAYMENTS = 2`,
calls the same `_removeMember` routine `leavePool` uses — but the `i--`
index adjustment that follows an eviction is a checked `uint256`
decrement, so when the evicted member is being processed at index 0 of
`memberList` it underflows, and the whole `collectPayments` call reverts,
rolling back both the increment and the eviction. On `demoPoolBug` (the
pending member 5, holding one prior failure, sits at the head of the
list) the tick errors instead of evicting. On `demoPool` (the same pool
with member 5 at index 1) the tick completes as the claim describes:
member 4's count rises to 1 with a `PaymentFailed` event and no eviction,
while member 5 is marked inactive, leaves the iteration list,
`currentMembers` drops from 2 to 1, and `MemberRemoved` fires with
"Too many failed payments" — distinct from the "Member left voluntarily"
that `leavePool` passes to the same `_removeMember`. -/
theorem claim_C9_pool_eviction :
    collectPayments demoPoolBug 1 20 = .error ("panic: arithmetic underflow") ∧
    (∃ st', collectPayments demoPool 1 20 = .ok st' ∧
      ((st'.pools 1).memberData 4).failedPaymentCount = 1 ∧
      ((st'.pools 1).memberData 4).isActive = true ∧
      PoolEvent.PaymentFailed 1 4 ∈ st'.events ∧
      ((st'.pools 1).memberData 5).isActive = false ∧
      5 ∉ (st'.pools 1).memberList ∧
      (st'.pools 1).currentMembers = 1 ∧
      PoolEvent.MemberRemoved 1 5 "Too many failed payments" ∈ st'.events) ∧
    leavePool demoPool 4 1
      = .ok (_removeMember demoPool 1 4 ("Member left voluntarily")) ∧
    "Too many failed payments" ≠ "Member left voluntarily" := by
  refine ⟨rfl, ⟨_, rfl, ?_, ?_, ?_, ?_, ?_, ?_, ?_⟩, rfl, by decide⟩
  all_goals decide

theorem ok_of_not_errored (r : Except String State) (h : errored r = false) :
    ∃ s', r = .ok s' := by
  cases r with
  | error e => simp [errored] at h
  | ok s' => exact ⟨s', rfl⟩

/-! ## Witnesses: the claim theorems evaluated at concrete inputs -/

/-- C1 witness: escrow 3 (amount 1000) at feeBps 250 — the freelancer
receives 975 and the fee recipient 25. -/
theorem claim_C1_witness :
    ∃ s', approveWork demoState 5 3 200 = .ok s' ∧
      (s'.escrows 3).status = EscrowStatus.Completed ∧
      s'.transfers = [{ toAddr := 7, amount := 25, token := 0 },
        { toAddr := 6, amount := 975, token := 0 }] := by
  obtain ⟨s', hok, hst, htr, _⟩ := claim_C1_approveWork_release demoState 5 3 200
    (by decide) (by decide) (by decide) (by decide)
  exact ⟨s', hok, hst, htr.trans (by decide)⟩

/-- C2 witness: on disputed escrow 4 (amount 1000), 1+2 ≠ 1000 is rejected
and 400+600 = 1000 is paid out exactly, fee-free. -/
theorem claim_C2_witness :
    errored (resolveDispute demoState 8 4 1 2 50) = true ∧
    ∃ s', resolveDispute demoState 8 4 400 600 50 = .ok s' ∧
      (s'.escrows 4).status = EscrowStatus.Completed ∧
      s'.transfers = [{ toAddr := 5, amount := 400, token := 0 },
        { toAddr := 6, amount := 600, token := 0 }] := by
  constructor
  · exact (claim_C2_resolveDispute_conservation demoState 8 4 1 2 50).1 (by decide)
  · obtain ⟨s', hok, hst, htr⟩ :=
      (claim_C2_resolveDispute_conservation demoState 8 4 400 600 50).2
        (by decide) (by decide) (by decide) (by decide)
    exact ⟨s', hok, hst, htr.trans (by decide)⟩

/-- C3 witness: every state-changing operation on completed escrow 5
reverts. -/
theorem claim_C3_witness :
    errored (fundEscrow demoState 5 5 1000 50) = true ∧
    errored (submitWork demoState 5 5 "d" 50) = true ∧
    errored (approveWork demoState 5 5 50) = true ∧
    errored (raiseDispute demoState 5 5 50) = true ∧
    errored (resolveDispute demoState 5 5 400 600 50) = true ∧
    errored (cancelEscrow demoState 5 5 50) = true :=
  claim_C3_terminal_states demoState 5 (Or.inl (by decide)) 5 1000 50 400 600 "d"

/-- C4 witness: funding escrow 2 debits client 5 from 5000 to 4000;
funding escrow 6 (amount 999999) fails on the same balance. -/
theorem claim_C4_witness :
    (∃ s', fundEscrow demoState 5 2 1000 50 = .ok s' ∧
      s'.balances 5 0 = 4000 ∧
      (s'.escrows 2).status = EscrowStatus.Funded) ∧
    errored (fundEscrow demoState 5 6 999999 50) = true := by
  constructor
  · obtain ⟨s', hok, hb, _, hst, _⟩ := (claim_C4_fund_atomic demoState 5 2 1000 50
      (by decide) (by decide) (by decide) (by decide)).1 (by decide)
    exact ⟨s', hok, hb.trans (by decide), hst⟩
  · exact (claim_C4_fund_atomic demoState 5 6 999999 50
      (by decide) (by decide) (by decide) (by decide)).2 (by decide)

/-- C5 witness: approving escrow 3 succeeds once and reverts the second
time; resolving the non-disputed escrow 1 reverts. -/
theorem claim_C5_witness :
    (∃ s', approveWork demoState 5 3 200 = .ok s' ∧
      errored (approveWork s' 5 3 201) = true) ∧
    errored (resolveDispute demoState 5 1 0 0 50) = true :=
  claim_C5_no_double_release demoState 5 3 200 201 (by decide) (by decide)
    (by decide) demoState 5 1 0 0 50 (by decide)

/-- C6 witness: submission on escrow 1 reverts at time 101 (past the
deadline 100) and succeeds at 50; funding escrow 2 and approving escrow 3
succeed at time 200, past the deadline. -/
theorem claim_C6_witness :
    errored (submitWork demoState 6 1 "d" 101) = true ∧
    (∃ s', submitWork demoState 6 1 "d" 50 = .ok s' ∧
      (s'.escrows 1).deliveryHash = "d" ∧
      (s'.escrows 1).status = EscrowStatus.WorkSubmitted) ∧
    (∃ s', fundEscrow demoState 5 2 1000 200 = .ok s') ∧
    (∃ s', approveWork demoState 5 3 200 = .ok s') := by
  refine ⟨(claim_C6_deadline_only_bounds_submission demoState).1 6 1 "d" 101 (by decide),
    ?_,
    (claim_C6_deadline_only_bounds_submission demoState).2.2.1 5 2 1000 200
      (by decide) (by decide) (by decide) (by decide) (by decide) (by decide),
    (claim_C6_deadline_only_bounds_submission demoState).2.2.2 5 3 200
      (by decide) (by decide) (by decide) (by decide)⟩
  obtain ⟨s', hsub⟩ := ok_of_not_errored (submitWork demoState 6 1 "d" 50) (by decide)
  have hch := (claim_C6_deadline_only_bounds_submission demoState).2.1 6 1 "d" 50 s' hsub
  exact ⟨s', hsub, hch.2.2.2.2.1, hch.2.2.2.2.2⟩

/-- C7 witness: creating an escrow on `demoState` succeeds, returns id 7,
bumps the counter to 8, stores status `Created` and moves no funds. -/
theorem claim_C7_witness :
    ∃ i s', createEscrow demoState 5 6 8 1000 0 100 "w" 50 = .ok (i, s') ∧
      i = 7 ∧ s'.nextEscrowId = 8 ∧
      (s'.escrows i).status = EscrowStatus.Created ∧
      s'.transfers = [] := by
  obtain ⟨r, hok⟩ := (claim_C7_create_guards_and_id demoState 5 6 8 1000 0 100 "w" 50).1.mpr
    ⟨by decide, by decide, by decide, Or.inl (by decide)⟩
  obtain ⟨i, s'⟩ := r
  have h2 := (claim_C7_create_guards_and_id demoState 5 6 8 1000 0 100 "w" 50).2 i s' hok
  exact ⟨i, s', hok, h2.1, h2.2.1, h2.2.2.1, h2.2.2.2.2.2.2⟩

/-- C8 witness: non-owner 3 cannot set the fee; 2000 bps is rejected; a
successful owner change to 100 bps respects the cap; the release fee on
escrow 3 is 25 ≤ 100 = 10% of 1000. -/
theorem claim_C8_witness :
    errored (setPlatformFee demoState 3 100) = true ∧
    errored (setPlatformFee demoState 3 2000) = true ∧
    ({ demoState with platformFee := 100 } : State).platformFee ≤ 1000 ∧
    (_releasePayment demoState 3).transfers =
      [{ toAddr := 7, amount := 25, token := 0 },
       { toAddr := 6, amount := 975, token := 0 }] ∧
    (demoState.escrows 3).amount * demoState.platformFee / 10000
      ≤ (demoState.escrows 3).amount / 10 := by
  obtain ⟨h1, h2, h3, h4, h5⟩ := claim_C8_fee_cap demoState demoState demoState
    (Op.setPlatformFeeOp 9 100) { demoState with platformFee := 100 }
    3 3 100 2000 3 rfl (by decide) (by decide) (by decide) (by decide)
  exact ⟨h1, h2, h3, h4.trans (by decide), h5⟩

/-- C10 witness: right after deployment escrow id 0 passes the existence
check but every operation on it by caller 5 reverts. -/
theorem claim_C10_witness :
    0 < (initState 9 7 (fun _ _ => 0)).nextEscrowId ∧
    ((initState 9 7 (fun _ _ => 0)).escrows 0).client = 0 ∧
    ((initState 9 7 (fun _ _ => 0)).escrows 0).freelancer = 0 ∧
    ((initState 9 7 (fun _ _ => 0)).escrows 0).mediator = 0 ∧
    errored (fundEscrow (initState 9 7 (fun _ _ => 0)) 5 0 0 50) = true ∧
    errored (submitWork (initState 9 7 (fun _ _ => 0)) 5 0 "d" 50) = true ∧
    errored (approveWork (initState 9 7 (fun _ _ => 0)) 5 0 50) = true ∧
    errored (raiseDispute (initState 9 7 (fun _ _ => 0)) 5 0 50) = true ∧
    errored (resolveDispute (initState 9 7 (fun _ _ => 0)) 5 0 1 2 50) = true ∧
    errored (cancelEscrow (initState 9 7 (fun _ _ => 0)) 5 0 50) = true :=
  claim_C10_phantom_escrow_zero _
    (Reachable.init 9 7 (fun _ _ => 0) (by decide)) 5 (by decide) 0 50 1 2 "d"

end ChainTrust
